import Mathlib

/-!
Verification of the Reddit-Pulse-Analytics enrichment pipeline.

The development shallowly embeds the data-processing core of the repository:
`src/utils.py` (TextPreprocessor, DataProcessor, MetricsCalculator,
DataValidator) and `src/data_processor.py` (RedditDataProcessor).

Modelling conventions:
* Python strings are `String` / `List Char`; the Unicode-aware character
  classes `\w` and `\s` of Python's `re` module are modelled on their ASCII
  core (`Char.isAlphanum`/`'_'` resp. `Char.isWhitespace`), and `str.lower`
  by `Char.toLower` (basic latin).
* Python floats are modelled as exact rationals `Rat`; `NaN` propagation in
  pandas column arithmetic is modelled by `Option Rat` (`none` = NaN).
* A pandas `DataFrame` is a column-oriented table: a list of named columns,
  each with a declared dtype and a list of cells.  `df[c] = ...` both
  replaces and appends columns exactly as pandas does, and mutation of the
  caller's frame is made explicit by threading the frame value through each
  statement of the source.
* Fallible Python statements are `Except String`; a `try/except` handler of
  the source becomes a `match` on that result.
-/

/- `Rat.mul`/`Rat.inv`/… are `@[irreducible]` in Batteries, which blocks
`decide` from evaluating concrete pipeline runs even though the kernel
itself reduces them fine; restore semireducibility for this file. -/
set_option allowUnsafeReducibility true
attribute [local semireducible] Rat.mul Rat.inv Rat.div Rat.add Rat.sub Rat.neg

/-! ### Character classes (Python `re` on its ASCII core) -/

/-- Python's `\w` (word character) on the ASCII core: `[A-Za-z0-9_]`. -/
def wordChar (c : Char) : Bool := c.isAlphanum || c = '_'

/-- The characters kept by `re.sub(r'[^\w\s]', '', text)`: word characters
and whitespace. -/
def keepChar (c : Char) : Bool := wordChar c || c.isWhitespace

/-! ### `re.sub(r'http\S+|www\S+|https\S+', '', text)`

The regex is applied left to right, non-overlapping, each alternative
matching a literal prefix followed by a greedy run of one-or-more
non-whitespace characters (the `https` alternative is subsumed by the
`http` one). -/

/-- Length consumed by a match of `http\S+|www\S+|https\S+` anchored at the
head of `l`, or `none` when no alternative matches here. -/
def urlMatchLen (l : List Char) : Option Nat :=
  if ['h','t','t','p'].isPrefixOf l then
    let k := ((l.drop 4).takeWhile (fun c => !c.isWhitespace)).length
    if k = 0 then none else some (4 + k)
  else if ['w','w','w'].isPrefixOf l then
    let k := ((l.drop 3).takeWhile (fun c => !c.isWhitespace)).length
    if k = 0 then none else some (3 + k)
  else none

/-- One left-to-right pass deleting every non-overlapping match of the URL
regex.  The fuel argument (instantiated with the list length) only serves
termination; a match always consumes at least one character. -/
def stripURLsAux : Nat → List Char → List Char
  | _, [] => []
  | 0, l => l
  | fuel+1, c :: cs =>
    match urlMatchLen (c :: cs) with
    | some n => stripURLsAux fuel ((c :: cs).drop n)
    | none => c :: stripURLsAux fuel cs

def stripURLs (l : List Char) : List Char := stripURLsAux l.length l

/-- Does any position of `l` start a URL-regex match?  (`re.search` would
find one iff this is true.) -/
def hasURL : List Char → Bool
  | [] => false
  | c :: cs => (urlMatchLen (c :: cs)).isSome || hasURL cs

/-! ### Python's `str.split()` and `' '.join` -/

/-- `str.split()` with no separator: split on whitespace runs, dropping
empty pieces.  Fuel = list length. -/
def pySplitAux : Nat → List Char → List (List Char)
  | _, [] => []
  | 0, _ => []
  | fuel+1, c :: cs =>
    if c.isWhitespace then pySplitAux fuel cs
    else (c :: cs.takeWhile (fun d => !d.isWhitespace)) ::
         pySplitAux fuel (cs.dropWhile (fun d => !d.isWhitespace))

def pySplit (l : List Char) : List (List Char) := pySplitAux l.length l

/-- `' '.join(ws)`. -/
def joinWords : List (List Char) → List Char
  | [] => []
  | [w] => w
  | w :: v :: ws => w ++ ' ' :: joinWords (v :: ws)

/-! ### `TextPreprocessor.clean_text` (src/utils.py lines 15-38) -/

/-- The four cleaning steps applied to a non-missing string: lowercase,
remove URLs, remove special characters, collapse whitespace
(`' '.join(text.split())`). -/
def cleanChars (l : List Char) : List Char :=
  joinWords (pySplit ((stripURLs (l.map Char.toLower)).filter keepChar))

/-- `TextPreprocessor.clean_text` on a string argument. -/
def TextPreprocessor.clean_text (s : String) : String :=
  String.mk (cleanChars s.data)

/-- `clean_text` as invoked on a possibly-missing value: the `pd.isna`
guard returns `""` for a missing input. -/
def clean_opt : Option String → String
  | none => ""
  | some s => TextPreprocessor.clean_text s

/-- No two consecutive spaces anywhere in the list. -/
def noDoubleSpace : List Char → Bool
  | c :: d :: rest => !(c = ' ' && d = ' ') && noDoubleSpace (d :: rest)
  | _ => true

example : TextPreprocessor.clean_text "Visit http://a.com NOW!!" = "visit now" := by decide
example : TextPreprocessor.clean_text "ht!tpx" = "httpx" := by decide
example : TextPreprocessor.clean_text "httpx" = "" := by decide
example : TextPreprocessor.clean_text "  Hello,   World! " = "hello world" := by decide

/-! ### Ordered counting and stable sorting (Python dict / `sorted`) -/

/-- First-occurrence deduplication: the key order of a Python dict built by
insertion. -/
def dedupKeepFirst {α : Type} [DecidableEq α] (l : List α) : List α :=
  l.foldl (fun acc w => if w ∈ acc then acc else acc ++ [w]) []

/-- `word_counts[w] += 1` on an insertion-ordered association list
(Python `defaultdict(int)`). -/
def bumpCount {α : Type} [DecidableEq α] : List (α × Nat) → α → List (α × Nat)
  | [], w => [(w, 1)]
  | (v, c) :: rest, w =>
    if v = w then (v, c + 1) :: rest else (v, c) :: bumpCount rest w

/-- Occurrence counts in first-encounter key order (the iteration order of
a Python dict). -/
def countsInOrder {α : Type} [DecidableEq α] (ws : List α) : List (α × Nat) :=
  ws.foldl bumpCount []

/-- Insertion step of a stable descending sort by count: the element from
the earlier position goes in front of the first entry whose count is not
strictly greater.  `foldr` over this reproduces Python's stable
`sorted(..., key=count, reverse=True)`. -/
def insertByCount {α : Type} (x : α × Nat) : List (α × Nat) → List (α × Nat)
  | [] => [x]
  | y :: ys => if y.2 ≤ x.2 then x :: y :: ys else y :: insertByCount x ys

def sortByCountDesc {α : Type} (l : List (α × Nat)) : List (α × Nat) :=
  l.foldr insertByCount []

/-! ### `DataProcessor.identify_trending_topics` (src/utils.py lines 84-124) -/

def stop_words : List String := ["the", "and", "is", "in", "to", "a", "for"]

/-- The token stream of `identify_trending_topics`: the texts joined with
spaces, lowercased, whitespace-split, with stop words and tokens of length
`≤ 2` removed. -/
def trendingTokens (texts : List String) : List String :=
  ((pySplit ((String.intercalate " " texts).data.map Char.toLower)).map String.mk).filter
    (fun w => !stop_words.contains w && decide (2 < w.length))

/-- `DataProcessor.identify_trending_topics`: count the filtered tokens in
first-encounter order, keep counts `≥ min_count`, and stable-sort by count
descending (`sorted(..., reverse=True)`).  The source's default for
`min_count` is `3`. -/
def DataProcessor.identify_trending_topics (texts : List String) (min_count : Nat) :
    List (String × Nat) :=
  sortByCountDesc ((countsInOrder (trendingTokens texts)).filter
    (fun p => decide (min_count ≤ p.2)))

/-! ### The DataFrame model

A pandas `DataFrame` is modelled column-oriented: an ordered list of named
columns, each carrying a declared dtype and a list of cells.  Cells model
the scalar values occurring in this pipeline; `Cell.null` stands for
`None`/`NaN`/`NaT`, and `Cell.strs` for a list-valued object cell (the
`mentions`/`tickers` columns). -/

inductive ColDtype
  | intT
  | floatT
  | datetimeT
  | objectT
deriving DecidableEq

inductive Cell
  | null
  | s (v : String)
  | i (v : Int)
  | f (v : Rat)
  | dt (secs : Nat)
  | strs (v : List String)
deriving DecidableEq

structure Col where
  dtype : ColDtype
  cells : List Cell
deriving DecidableEq

structure DF where
  cols : List (String × Col)
deriving DecidableEq

deriving instance DecidableEq for Except

def DF.colNames (df : DF) : List String := df.cols.map Prod.fst

def DF.hasCol (df : DF) (name : String) : Bool := df.cols.any (fun p => p.1 == name)

def lookupCol (name : String) : List (String × Col) → Except String Col
  | [] => .error ("KeyError: " ++ name)
  | p :: ps => if p.1 == name then .ok p.2 else lookupCol name ps

/-- Column access `df[name]`; a missing column raises `KeyError`. -/
def DF.getCol (df : DF) (name : String) : Except String Col := lookupCol name df.cols

def replaceCol (name : String) (col : Col) : List (String × Col) → List (String × Col)
  | [] => []
  | p :: ps =>
    if p.1 == name then (p.1, col) :: replaceCol name col ps
    else p :: replaceCol name col ps

/-- Column assignment `df[name] = col`: replaces an existing column in
place, otherwise appends the new column at the end (pandas order). -/
def DF.setCol (df : DF) (name : String) (col : Col) : DF :=
  if df.hasCol name then ⟨replaceCol name col df.cols⟩
  else ⟨df.cols ++ [(name, col)]⟩

def DF.nrows (df : DF) : Nat :=
  match df.cols with
  | [] => 0
  | (_, c) :: _ => c.cells.length

/-- Does a cell conform to the column dtype?  (pandas `int64` columns hold
no missing values; `float64`/`datetime64` columns may hold `NaN`/`NaT`;
`object` columns hold anything.) -/
def cellMatches : ColDtype → Cell → Bool
  | .intT, .i _ => true
  | .intT, _ => false
  | .floatT, .f _ => true
  | .floatT, .null => true
  | .floatT, _ => false
  | .datetimeT, .dt _ => true
  | .datetimeT, .null => true
  | .datetimeT, _ => false
  | .objectT, _ => true

/-- Well-formedness of the model as an image of a real `DataFrame`: column
names are distinct, all columns have the same length, and cells conform to
their column dtype. -/
def DF.wf (df : DF) : Bool :=
  decide df.colNames.Nodup &&
    df.cols.all (fun p =>
      p.2.cells.length == df.nrows && p.2.cells.all (cellMatches p.2.dtype))

def isNumericDtype : ColDtype → Bool
  | .intT => true
  | .floatT => true
  | _ => false

def isDatetimeDtype : ColDtype → Bool
  | .datetimeT => true
  | _ => false

def isFloatDtype : ColDtype → Bool
  | .floatT => true
  | _ => false

def Cell.isNull : Cell → Bool
  | .null => true
  | _ => false

/-! ### `DataValidator.validate_reddit_data` (src/utils.py lines 204-255) -/

def required_columns : List String :=
  ["title", "text", "score", "created_utc", "num_comments", "upvote_ratio"]

/-- `DataValidator.validate_reddit_data`: all required columns present;
`score` and `num_comments` numeric; `created_utc` datetime-typed;
`upvote_ratio` float-typed; no missing `title`.  Never raises: the
source catches any exception during the checks and returns `False`
(the unreachable fall-through branch below is that handler). -/
def DataValidator.validate_reddit_data (df : DF) : Bool :=
  if !required_columns.all (fun c => df.hasCol c) then false
  else
    match df.getCol "score", df.getCol "created_utc", df.getCol "num_comments",
        df.getCol "upvote_ratio", df.getCol "title" with
    | .ok score, .ok created, .ok nc, .ok ur, .ok title =>
      isNumericDtype score.dtype && isDatetimeDtype created.dtype &&
        isNumericDtype nc.dtype && isFloatDtype ur.dtype &&
        !title.cells.any Cell.isNull
    | _, _, _, _, _ => false

/-! ### `DataProcessor.calculate_engagement_metrics` (src/utils.py lines 67-82)

Timestamps are naive UTC seconds since the epoch.  Elementwise Series
arithmetic on a numeric value is exact rational arithmetic with `NaN`
(`Option.none`) propagation; a non-numeric cell raises `TypeError`. -/

def numVal : Cell → Option Rat
  | .i v => some (v : Rat)
  | .f v => some v
  | _ => none

def Cell.toNum : Cell → Except String (Option Rat)
  | .null => .ok none
  | .i v => .ok (some (v : Rat))
  | .f v => .ok (some v)
  | _ => .error "TypeError: non-numeric cell"

/-- `(score * 1.0 + num_comments * 2.0) * upvote_ratio` with NaN
propagation. -/
def engagementFormula (a b c : Option Rat) : Option Rat :=
  match a, b, c with
  | some x, some y, some z => some ((x * 1 + y * 2) * z)
  | _, _, _ => none

def cellOfNum : Option Rat → Cell
  | some q => .f q
  | none => .null

def hourOf (secs : Nat) : Nat := secs / 3600 % 24

def day_names : List String :=
  ["Monday", "Tuesday", "Wednesday", "Thursday", "Friday", "Saturday", "Sunday"]

/-- ISO weekday (Monday = 1 … Sunday = 7) of a day count since the epoch;
1970-01-01 was a Thursday. -/
def isoWeekdayOfDays (days : Nat) : Nat := (days + 3) % 7 + 1

/-- `Series.dt.day_name()`. -/
def dayNameOf (secs : Nat) : String :=
  day_names.getD (isoWeekdayOfDays (secs / 86400) - 1) ""

/-- A derived integer column: pandas keeps `int` dtype when no value is
missing and promotes to `float` (with `NaN`) otherwise. -/
def mkIntOrFloatCol (vals : List (Option Nat)) : Col :=
  if vals.contains none then
    ⟨.floatT, vals.map (fun v => match v with | some n => Cell.f (n : Rat) | none => Cell.null)⟩
  else
    ⟨.intT, vals.map (fun v => match v with | some n => Cell.i (n : Int) | none => Cell.null)⟩

/-- First statement of `calculate_engagement_metrics`:
`df['engagement_score'] = (df['score']*1.0 + df['num_comments']*2.0) * df['upvote_ratio']`. -/
def DataProcessor.assignEngagement (df : DF) : Except String DF := do
  let score ← df.getCol "score"
  let nc ← df.getCol "num_comments"
  let ur ← df.getCol "upvote_ratio"
  let sv ← score.cells.mapM Cell.toNum
  let nv ← nc.cells.mapM Cell.toNum
  let uv ← ur.cells.mapM Cell.toNum
  return df.setCol "engagement_score"
    ⟨.floatT, (List.zipWith3 engagementFormula sv nv uv).map cellOfNum⟩

/-- Second statement: `df['hour_of_day'] = df['created_utc'].dt.hour`; the
`.dt` accessor raises unless the column is datetime-typed; `NaT` yields a
missing hour. -/
def DataProcessor.assignHour (df : DF) : Except String DF := do
  let cu ← df.getCol "created_utc"
  if isDatetimeDtype cu.dtype then
    return df.setCol "hour_of_day"
      (mkIntOrFloatCol (cu.cells.map (fun c => match c with
        | .dt secs => some (hourOf secs)
        | _ => none)))
  else Except.error "AttributeError: can only use .dt accessor with datetimelike values"

/-- Third statement: `df['day_of_week'] = df['created_utc'].dt.day_name()`. -/
def DataProcessor.assignDayName (df : DF) : Except String DF := do
  let cu ← df.getCol "created_utc"
  if isDatetimeDtype cu.dtype then
    return df.setCol "day_of_week"
      ⟨.objectT, cu.cells.map (fun c => match c with
        | .dt secs => Cell.s (dayNameOf secs)
        | _ => Cell.null)⟩
  else Except.error "AttributeError: can only use .dt accessor with datetimelike values"

/-- `DataProcessor.calculate_engagement_metrics`: the three assignments run
in order inside one `try`; on any exception the handler returns `df` — that
is, the frame as already mutated by the statements that did complete. -/
def DataProcessor.calculate_engagement_metrics (df : DF) : DF :=
  match DataProcessor.assignEngagement df with
  | .error _ => df
  | .ok df1 =>
    match DataProcessor.assignHour df1 with
    | .error _ => df1
    | .ok df2 =>
      match DataProcessor.assignDayName df2 with
      | .error _ => df2
      | .ok df3 => df3

/-- All three statements of `calculate_engagement_metrics` succeed (no
internal error occurs during the step). -/
def engagementStepsOk (df : DF) : Bool :=
  (((DataProcessor.assignEngagement df).bind DataProcessor.assignHour).bind
    DataProcessor.assignDayName).isOk

/-! ### `TextPreprocessor.extract_mentions` / `extract_tickers`
(src/utils.py lines 40-62)

`re.findall` scanners, left to right, non-overlapping.  `list(set(...))`
deduplicates; Python's set iteration order is implementation-defined, so
the model fixes it to first-encounter order (no claim depends on it, and
every concrete input used below has at most one distinct match). -/

/-- `re.findall(r'@(\w+)', text)`: at each `@`, capture a maximal nonempty
run of word characters. -/
def findMentionsAux : Nat → List Char → List String
  | _, [] => []
  | 0, _ => []
  | fuel+1, c :: cs =>
    if c = '@' then
      let w := cs.takeWhile wordChar
      if w.length = 0 then findMentionsAux fuel cs
      else String.mk w :: findMentionsAux fuel (cs.drop w.length)
    else findMentionsAux fuel cs

/-- `TextPreprocessor.extract_mentions` applied to a cell; `re.findall` on a
non-string raises `TypeError`, caught by the source's handler (→ `[]`). -/
def TextPreprocessor.extract_mentions : Cell → List String
  | .s v => dedupKeepFirst (findMentionsAux v.data.length v.data)
  | _ => []

/-- `re.findall(r'\$([A-Za-z]{1,5})', text)`: at each `$`, greedily capture
up to five letters (at least one); scanning resumes after the capture. -/
def findDollarTickersAux : Nat → List Char → List String
  | _, [] => []
  | 0, _ => []
  | fuel+1, c :: cs =>
    if c = '$' then
      let w := (cs.takeWhile Char.isAlpha).take 5
      if w.length = 0 then findDollarTickersAux fuel cs
      else String.mk w :: findDollarTickersAux fuel (cs.drop w.length)
    else findDollarTickersAux fuel cs

/-- `re.findall(r'\b([A-Z]{2,5})\b', text)`: a match occurs at a position
not preceded by a word character whose maximal uppercase run has length
2–5 and is followed by a non-word character or the end (greedy with
backtracking, which for this pattern reduces to exactly that condition).
The boolean argument records whether the previous character was a word
character. -/
def findBareTickersAux : Nat → Bool → List Char → List String
  | _, _, [] => []
  | 0, _, _ => []
  | fuel+1, prevWord, c :: cs =>
    if !prevWord && c.isUpper then
      let run := (c :: cs).takeWhile Char.isUpper
      let rest := (c :: cs).drop run.length
      if 2 ≤ run.length && run.length ≤ 5 &&
          !(match rest with | [] => false | d :: _ => wordChar d) then
        String.mk run :: findBareTickersAux fuel true rest
      else findBareTickersAux fuel (wordChar c) cs
    else findBareTickersAux fuel (wordChar c) cs

/-- `TextPreprocessor.extract_tickers`: the `$`-pattern matches are extended
with the bare-uppercase matches, then deduplicated. -/
def TextPreprocessor.extract_tickers : Cell → List String
  | .s v =>
    dedupKeepFirst (findDollarTickersAux v.data.length v.data ++
      findBareTickersAux v.data.length false v.data)
  | _ => []

/-! ### The Sentiment Enricher (spec §4.4)

Modelled from the spec: `src/sentiment_analyzer.py` is imported by
`data_processor.py` but absent from the source tree (only its tests
remain).  §4.4 specifies `analyze_batch : list of string → list of
(label, score)`, same length and order as the input, where empty or
missing text yields `(neutral, 0.5)` immediately and an individual
classifier failure also falls back to `(neutral, 0.5)` without aborting
the batch. -/

/-- The injected classifier capability: text ↦ (label, score), or a
failure. -/
def Classifier : Type := String → Except String (String × Rat)

def pyStrip (l : List Char) : List Char :=
  ((l.dropWhile Char.isWhitespace).reverse.dropWhile Char.isWhitespace).reverse

/-- Modelled from the spec (§4.4): sentiment of one text. -/
def SentimentAnalyzer.analyze_text (classify : Classifier) : Cell → String × Rat
  | .null => ("neutral", 1/2)
  | .s v =>
    if pyStrip v.data = [] then ("neutral", 1/2)
    else
      match classify v with
      | .ok r => r
      | .error _ => ("neutral", 1/2)
  | _ => ("neutral", 1/2)

/-- Modelled from the spec (§4.4): batch analysis maps `analyze_text` over
the texts in order. -/
def SentimentAnalyzer.analyze_texts_batch (classify : Classifier) (texts : List Cell) :
    List (String × Rat) :=
  texts.map (SentimentAnalyzer.analyze_text classify)

/-- A deterministic conforming classifier stub (used only to instantiate
theorems at concrete inputs). -/
def neutralClassifier : Classifier := fun _ => .ok ("neutral", 1/2)

/-! ### ISO calendar week (`Series.dt.isocalendar().week`) -/

/-- Civil date `(year, month, day)` from days since 1970-01-01 (Howard
Hinnant's `civil_from_days`; all intermediate quantities are non-negative
for non-negative day counts, so truncated division is floor division). -/
def civilFromDays (z0 : Nat) : Int × Nat × Nat :=
  let z : Int := (z0 : Int) + 719468
  let era : Int := z / 146097
  let doe : Int := z % 146097
  let yoe : Int := (doe - doe / 1460 + doe / 36524 - doe / 146096) / 365
  let y : Int := yoe + era * 400
  let doy : Int := doe - (365 * yoe + yoe / 4 - yoe / 100)
  let mp : Int := (5 * doy + 2) / 153
  let d : Int := doy - (153 * mp + 2) / 5 + 1
  let m : Int := if mp < 10 then mp + 3 else mp - 9
  (if m ≤ 2 then y + 1 else y, m.toNat, d.toNat)

def isLeapYear (y : Int) : Bool := y % 4 = 0 && (y % 100 ≠ 0 || y % 400 = 0)

/-- Days before the first of a (1-based) month. -/
def daysBeforeMonth (m : Nat) (leap : Bool) : Nat :=
  [0, 31, 59, 90, 120, 151, 181, 212, 243, 273, 304, 334].getD (m - 1) 0 +
    (if leap && 2 < m then 1 else 0)

/-- Does an ISO year have 53 weeks?  Iff 1 January falls on a Thursday, or
on a Wednesday in a leap year. -/
def longISOYear (jan1wd : Nat) (leap : Bool) : Bool :=
  jan1wd = 4 || (leap && jan1wd = 3)

/-- ISO-8601 week number of a timestamp (naive UTC seconds). -/
def isoWeekOf (secs : Nat) : Nat :=
  let days := secs / 86400
  let c := civilFromDays days
  let y := c.1
  let doy := daysBeforeMonth c.2.1 (isLeapYear y) + c.2.2
  let wd := isoWeekdayOfDays days
  let w := (doy + 10 - wd) / 7
  let jan1 := isoWeekdayOfDays (days - (doy - 1))
  if w = 0 then
    let shiftPrev := if isLeapYear (y - 1) then 2 else 1
    let jan1Prev := (jan1 + 6 - shiftPrev) % 7 + 1
    if longISOYear jan1Prev (isLeapYear (y - 1)) then 53 else 52
  else if w = 53 then
    if longISOYear jan1 (isLeapYear y) then 53 else 1
  else w

/-! ### `MetricsCalculator.calculate_time_based_metrics`
(src/utils.py lines 153-202) -/

def insertAsc {α : Type} [LinearOrder α] (x : α) : List α → List α
  | [] => [x]
  | y :: ys => if x ≤ y then x :: y :: ys else y :: insertAsc x ys

def sortAsc {α : Type} [LinearOrder α] (l : List α) : List α := l.foldr insertAsc []

/-- Group keys of `df.groupby(k).size()`: the distinct non-missing keys in
ascending order (pandas sorts group keys and drops missing ones). -/
def sortedUniqueKeys {α : Type} [LinearOrder α] [DecidableEq α] (l : List α) : List α :=
  sortAsc (dedupKeepFirst l)

/-- `Series.idxmax`: the first index attaining the maximum value. -/
def idxmaxPair {α : Type} (l : List (α × Nat)) : Option α :=
  (l.foldl (fun acc p => match acc with
    | none => some p
    | some q => if p.2 > q.2 then some p else some q) none).map Prod.fst

/-- `Series.idxmin`: the first index attaining the minimum value. -/
def idxminPair {α : Type} (l : List (α × Nat)) : Option α :=
  (l.foldl (fun acc p => match acc with
    | none => some p
    | some q => if p.2 < q.2 then some p else some q) none).map Prod.fst

/-- Sample variance (`ddof = 1`); `none` (`NaN`) below two samples.  The
source stores the sample standard deviation — the square root of this
value, which is irrational in general; the pipeline never consumes it, so
the model keeps the variance. -/
def sampleVar (xs : List Rat) : Option Rat :=
  if xs.length ≤ 1 then none
  else
    let n : Rat := (xs.length : Rat)
    let m := xs.sum / n
    some ((xs.map (fun x => (x - m) ^ 2)).sum / (n - 1))

structure HourlyStats where
  peak_hour : Nat
  low_hour : Nat
  std_dev : Option Rat
deriving DecidableEq

structure DailyStats where
  peak_day : String
  low_day : String
  std_dev : Option Rat
deriving DecidableEq

/-- The metrics dictionary: `none` models an empty sub-dictionary.  The
`'weekly'` entry of the source is always left `{}` and is omitted. -/
structure TimeMetrics where
  hourly : Option HourlyStats
  daily : Option DailyStats
deriving DecidableEq

def emptyTimeMetrics : TimeMetrics := ⟨none, none⟩

def groupSizes {α : Type} [LinearOrder α] [DecidableEq α] (keys : List α) :
    List (α × Nat) :=
  (sortedUniqueKeys keys).map (fun k => (k, keys.count k))

/-- `MetricsCalculator.calculate_time_based_metrics(df, 'created_utc')`.
The source mutates its argument: `df['hour']`, `df['day']`, `df['week']`
are assigned before the groupbys run, so the assignments survive even when
`idxmax` on an empty grouping raises (the handler then returns the all-empty
metrics dictionary).  When the timestamp column is missing or not
datetime-typed, the exception fires before any assignment. -/
def MetricsCalculator.calculate_time_based_metrics (df : DF) (timestamp_col : String) :
    DF × TimeMetrics :=
  match df.getCol timestamp_col with
  | .error _ => (df, emptyTimeMetrics)
  | .ok cu =>
    if isDatetimeDtype cu.dtype then
      let hourVals := cu.cells.map (fun c => match c with
        | .dt secs => some (hourOf secs)
        | _ => none)
      let dayVals := cu.cells.map (fun c => match c with
        | .dt secs => some (dayNameOf secs)
        | _ => (none : Option String))
      let weekVals := cu.cells.map (fun c => match c with
        | .dt secs => some (isoWeekOf secs)
        | _ => none)
      let df1 :=
        ((df.setCol "hour" (mkIntOrFloatCol hourVals)).setCol "day"
          ⟨.objectT, dayVals.map (fun v => match v with
            | some d => Cell.s d
            | none => Cell.null)⟩).setCol "week" (mkIntOrFloatCol weekVals)
      let hourKeys := hourVals.reduceOption
      let dayKeys := dayVals.reduceOption
      let tm : TimeMetrics :=
        match idxmaxPair (groupSizes hourKeys), idxminPair (groupSizes hourKeys),
            idxmaxPair (groupSizes dayKeys), idxminPair (groupSizes dayKeys) with
        | some ph, some lh, some pd, some ld =>
          ⟨some ⟨ph, lh, sampleVar ((groupSizes hourKeys).map (fun p => (p.2 : Rat)))⟩,
            some ⟨pd, ld, sampleVar ((groupSizes dayKeys).map (fun p => (p.2 : Rat)))⟩⟩
        | _, _, _, _ => emptyTimeMetrics
      (df1, tm)
    else (df, emptyTimeMetrics)

/-! ### `RedditDataProcessor._calculate_insights`
(src/data_processor.py lines 77-122) -/

/-- `Series.value_counts().to_dict()`: counts of the distinct non-missing
values, sorted by count descending; ties are kept in first-encounter order
in the model (pandas does not specify a tie order; no claim depends on
it). -/
def valueCounts {α : Type} [DecidableEq α] (l : List α) : List (α × Nat) :=
  sortByCountDesc (countsInOrder l)

/-- `Series.mean()`: arithmetic mean of the non-missing numeric values
(`skipna`), `NaN` when there are none; raises `TypeError` on a
non-numeric cell. -/
def seriesMean (cells : List Cell) : Except String (Option Rat) := do
  let vals ← cells.mapM Cell.toNum
  let nums := vals.reduceOption
  if nums.length = 0 then return none
  else return some (nums.sum / (nums.length : Rat))

/-- Python iteration over one cell of the `tickers` column
(`for ticker in tickers`): a list yields its elements, a string yields its
characters, anything else raises `TypeError`. -/
def iterCellStrings : Cell → Except String (List String)
  | .strs v => .ok v
  | .s v => .ok (v.data.map (fun c => String.mk [c]))
  | _ => .error "TypeError: not iterable"

/-- `identify_trending_topics(df['clean_title'].tolist() + df['clean_text'].tolist())`:
if any listed value is not a string, `' '.join` raises inside
`identify_trending_topics`' own handler, which returns `[]`. -/
def trendingFromCells (cells : List Cell) : List (String × Nat) :=
  if cells.all (fun c => match c with | .s _ => true | _ => false) then
    DataProcessor.identify_trending_topics
      (cells.filterMap (fun c => match c with | .s v => some v | _ => none)) 3
  else []

def insertByVal {α : Type} (x : α × Rat) : List (α × Rat) → List (α × Rat)
  | [] => [x]
  | y :: ys => if y.2 ≤ x.2 then x :: y :: ys else y :: insertByVal x ys

def sortByValDesc {α : Type} (l : List (α × Rat)) : List (α × Rat) :=
  l.foldr insertByVal []

/-- `df.nlargest(5, 'engagement_score')[['title', 'engagement_score']]`
(`keep='first'`): rows sorted by engagement descending, ties in original
order, missing values dropped, first five kept.  Raises `KeyError` on a
missing column and `TypeError` on a non-numeric sort column. -/
def nlargestTopPosts (df : DF) : Except String (List (Cell × Rat)) := do
  let eng ← df.getCol "engagement_score"
  if isNumericDtype eng.dtype then
    let title ← df.getCol "title"
    let pairs := (title.cells.zip eng.cells).filterMap
      (fun p => match numVal p.2 with
        | some q => some (p.1, q)
        | none => none)
    return (sortByValDesc pairs).take 5
  else Except.error "TypeError: nlargest on a non-numeric column"

structure EngagementStats where
  avg_score : Option Rat
  avg_comments : Option Rat
  top_posts : List (Cell × Rat)
deriving DecidableEq

structure InsightsData where
  time_metrics : TimeMetrics
  trending_topics : List (String × Nat)
  sentiment_distribution : List (Cell × Nat)
  top_tickers : List (String × Nat)
  engagement_stats : EngagementStats
deriving DecidableEq

/-- The statements of `_calculate_insights` after the time-metrics call, in
source order; the first exception aborts the insights dictionary. -/
def RedditDataProcessor.insightsSteps (df : DF) (tm : TimeMetrics) :
    Except String InsightsData := do
  let ct ← df.getCol "clean_title"
  let cx ← df.getCol "clean_text"
  let trending := trendingFromCells (ct.cells ++ cx.cells)
  let sent ← df.getCol "sentiment"
  let dist := valueCounts (sent.cells.filter (fun c => !c.isNull))
  let tickersCol ← df.getCol "tickers"
  let flat ← tickersCol.cells.mapM iterCellStrings
  let top := (valueCounts flat.flatten).take 10
  let score ← df.getCol "score"
  let avgScore ← seriesMean score.cells
  let nc ← df.getCol "num_comments"
  let avgComments ← seriesMean nc.cells
  let tp ← nlargestTopPosts df
  return ⟨tm, trending, dist, top, ⟨avgScore, avgComments, tp⟩⟩

/-- `RedditDataProcessor._calculate_insights`: the time-metrics call runs
first (catching its own errors and mutating the frame); any exception in
the remaining statements is caught here and the empty dictionary `{}`
(modelled `none`) is returned. -/
def RedditDataProcessor.calculate_insights (df : DF) : DF × Option InsightsData :=
  let p := MetricsCalculator.calculate_time_based_metrics df "created_utc"
  match RedditDataProcessor.insightsSteps p.1 p.2 with
  | .ok ins => (p.1, some ins)
  | .error _ => (p.1, none)

/-! ### `RedditDataProcessor.process_reddit_data`
(src/data_processor.py lines 32-75) -/

/-- `clean_text` applied by `Series.apply` to one cell: `pd.isna` is true
for a missing cell (→ `""`); on a non-string scalar `text.lower()` raises
`AttributeError`, which the handler inside `clean_text` turns into `""`;
on an array-valued cell `pd.isna` itself raises before the `try` block,
so the exception propagates. -/
def TextPreprocessor.clean_cell : Cell → Except String String
  | .null => .ok ""
  | .s v => .ok (TextPreprocessor.clean_text v)
  | .strs _ => .error "ValueError: ambiguous truth value of an array"
  | _ => .ok ""

/-- Elementwise `+` of string Series values: `NaN` propagates, a
non-string raises `TypeError`. -/
def cellStrAppend (a b : Cell) : Except String Cell :=
  match a, b with
  | .s x, .s y => .ok (.s (x ++ y))
  | .null, .s _ => .ok .null
  | .s _, .null => .ok .null
  | .null, .null => .ok .null
  | _, _ => .error "TypeError: string concatenation"

/-- `df['clean_title'] + " " + df['clean_text']`. -/
def seriesStrConcat (df : DF) : Except String (List Cell) := do
  let ct ← df.getCol "clean_title"
  let cx ← df.getCol "clean_text"
  (ct.cells.zip cx.cells).mapM (fun p => do
    let l ← cellStrAppend p.1 (.s " ")
    cellStrAppend l p.2)

/-- The stages of `process_reddit_data` before the insights call:
validation (fatal `ValueError` when it returns false), text cleaning,
mention/ticker extraction, engagement metrics (non-fatal), sentiment
attachment.  The source mutates the single frame statement by statement,
so the state of the caller's frame at the point of failure is returned
alongside the result. -/
def RedditDataProcessor.enrichStages (classify : Classifier) (df0 : DF) :
    DF × Except String DF :=
  if !DataValidator.validate_reddit_data df0 then
    (df0, .error "Invalid Reddit data format")
  else
    match (df0.getCol "title").bind (fun c => c.cells.mapM TextPreprocessor.clean_cell) with
    | .error e => (df0, .error e)
    | .ok ctVals =>
      let df1 := df0.setCol "clean_title" ⟨.objectT, ctVals.map Cell.s⟩
      match (df1.getCol "text").bind (fun c => c.cells.mapM TextPreprocessor.clean_cell) with
      | .error e => (df1, .error e)
      | .ok cxVals =>
        let df2 := df1.setCol "clean_text" ⟨.objectT, cxVals.map Cell.s⟩
        match df2.getCol "clean_text" with
        | .error e => (df2, .error e)
        | .ok cx1 =>
          let df3 := df2.setCol "mentions"
            ⟨.objectT, cx1.cells.map (fun c => Cell.strs (TextPreprocessor.extract_mentions c))⟩
          match df3.getCol "clean_text" with
          | .error e => (df3, .error e)
          | .ok cx2 =>
            let df4 := df3.setCol "tickers"
              ⟨.objectT, cx2.cells.map (fun c => Cell.strs (TextPreprocessor.extract_tickers c))⟩
            let df5 := DataProcessor.calculate_engagement_metrics df4
            match seriesStrConcat df5 with
            | .error e => (df5, .error e)
            | .ok texts =>
              let results := SentimentAnalyzer.analyze_texts_batch classify texts
              let df6 := df5.setCol "sentiment"
                ⟨.objectT, results.map (fun r => Cell.s r.1)⟩
              let df7 := df6.setCol "sentiment_score"
                ⟨.floatT, results.map (fun r => Cell.f r.2)⟩
              (df7, .ok df7)

/-- `RedditDataProcessor.process_reddit_data`: enrichment stages, then
insights.  The handler around the whole body only logs and re-raises, so
an error propagates to the caller; on success the mutated frame and the
insights dictionary are returned. -/
def RedditDataProcessor.process_reddit_data (classify : Classifier) (df0 : DF) :
    DF × Except String (DF × Option InsightsData) :=
  match RedditDataProcessor.enrichStages classify df0 with
  | (st, .error e) => (st, .error e)
  | (_, .ok df7) =>
    let p := RedditDataProcessor.calculate_insights df7
    (p.1, .ok (p.1, p.2))

/-! ### Concrete fixtures (used only to instantiate theorems) -/

/-- A valid one-row frame (score 100, 50 comments, upvote ratio 0.95,
posted 1970-01-04 05:00 UTC, a Sunday). -/
def dfFixture : DF := ⟨[
  ("title", ⟨.objectT, [Cell.s "Nice Day Here"]⟩),
  ("text", ⟨.objectT, [Cell.s "all good"]⟩),
  ("score", ⟨.intT, [Cell.i 100]⟩),
  ("created_utc", ⟨.datetimeT, [Cell.dt 277200]⟩),
  ("num_comments", ⟨.intT, [Cell.i 50]⟩),
  ("upvote_ratio", ⟨.floatT, [Cell.f (19/20)]⟩)]⟩

/-- `dfFixture` without its `upvote_ratio` column. -/
def dfMissingRequired : DF := ⟨[
  ("title", ⟨.objectT, [Cell.s "Nice Day Here"]⟩),
  ("text", ⟨.objectT, [Cell.s "all good"]⟩),
  ("score", ⟨.intT, [Cell.i 100]⟩),
  ("created_utc", ⟨.datetimeT, [Cell.dt 277200]⟩),
  ("num_comments", ⟨.intT, [Cell.i 50]⟩)]⟩

/-- Valid numeric columns but no `created_utc` column at all. -/
def dfNoCreated : DF := ⟨[
  ("score", ⟨.intT, [Cell.i 100]⟩),
  ("num_comments", ⟨.intT, [Cell.i 50]⟩),
  ("upvote_ratio", ⟨.floatT, [Cell.f (19/20)]⟩)]⟩

/-- `dfFixture` with a missing (`NaT`) timestamp: still passes validation
(the validator checks only the column dtype, not missing values). -/
def dfNaT : DF := ⟨[
  ("title", ⟨.objectT, [Cell.s "Nice Day Here"]⟩),
  ("text", ⟨.objectT, [Cell.s "all good"]⟩),
  ("score", ⟨.intT, [Cell.i 100]⟩),
  ("created_utc", ⟨.datetimeT, [Cell.null]⟩),
  ("num_comments", ⟨.intT, [Cell.i 50]⟩),
  ("upvote_ratio", ⟨.floatT, [Cell.f (19/20)]⟩)]⟩

/-! ## Lemmas about the character classes -/

theorem toLower_idem (c : Char) : c.toLower.toLower = c.toLower := by
  unfold Char.toLower
  by_cases h : c.toNat ≥ 65 ∧ c.toNat ≤ 90
  · simp only [h, if_true, and_true, true_and]
    obtain ⟨h1, h2⟩ := h
    generalize c.toNat = n at h1 h2 ⊢
    interval_cases n <;> decide
  · simp only [h, if_false]

theorem ne_space_of_not_ws {c : Char} (h : c.isWhitespace = false) : c ≠ ' ' := by
  intro hc; subst hc; simp [Char.isWhitespace] at h

theorem wordChar_of_keep_not_ws {c : Char} (hk : keepChar c = true)
    (hw : c.isWhitespace = false) : wordChar c = true := by
  simp only [keepChar, Bool.or_eq_true] at hk
  rcases hk with hk | hk
  · exact hk
  · rw [hk] at hw; cases hw

/-! ## Lemmas about `stripURLs` -/

theorem mem_stripURLsAux {x : Char} :
    ∀ (fuel : Nat) (l : List Char), x ∈ stripURLsAux fuel l → x ∈ l := by
  intro fuel
  induction fuel with
  | zero =>
    intro l h
    cases l with
    | nil => simpa [stripURLsAux] using h
    | cons c cs => simpa [stripURLsAux] using h
  | succ n ih =>
    intro l h
    cases l with
    | nil => simpa [stripURLsAux] using h
    | cons c cs =>
      rw [stripURLsAux] at h
      cases hm : urlMatchLen (c :: cs) with
      | some k =>
        rw [hm] at h
        exact List.mem_of_mem_drop (ih _ h)
      | none =>
        rw [hm] at h
        rcases List.mem_cons.mp h with h | h
        · exact h ▸ List.mem_cons_self _ _
        · exact List.mem_cons_of_mem _ (ih _ h)

theorem stripURLsAux_eq_self :
    ∀ (fuel : Nat) (l : List Char), l.length ≤ fuel → hasURL l = false →
      stripURLsAux fuel l = l := by
  intro fuel
  induction fuel with
  | zero =>
    intro l hf _
    cases l with
    | nil => rfl
    | cons c cs => simp at hf
  | succ n ih =>
    intro l hf h
    cases l with
    | nil => rfl
    | cons c cs =>
      rw [hasURL, Bool.or_eq_false_iff] at h
      obtain ⟨h1, h2⟩ := h
      rw [stripURLsAux]
      cases hm : urlMatchLen (c :: cs) with
      | some k => rw [hm] at h1; cases h1
      | none =>
        rw [List.length_cons] at hf
        rw [ih cs (Nat.le_of_succ_le_succ hf) h2]

theorem stripURLs_eq_self {l : List Char} (h : hasURL l = false) : stripURLs l = l :=
  stripURLsAux_eq_self _ _ le_rfl h

/-! ## Lemmas about `pySplit` -/

theorem pySplitAux_tokens :
    ∀ (fuel : Nat) (l w : List Char), w ∈ pySplitAux fuel l →
      w ≠ [] ∧ (∀ c ∈ w, c.isWhitespace = false) ∧ (∀ c ∈ w, c ∈ l) := by
  intro fuel
  induction fuel with
  | zero =>
    intro l w h
    cases l with
    | nil => simp [pySplitAux] at h
    | cons c cs => simp [pySplitAux] at h
  | succ n ih =>
    intro l w h
    cases l with
    | nil => simp [pySplitAux] at h
    | cons c cs =>
      rw [pySplitAux] at h
      by_cases hws : c.isWhitespace
      · rw [if_pos hws] at h
        obtain ⟨h1, h2, h3⟩ := ih cs w h
        exact ⟨h1, h2, fun x hx => List.mem_cons_of_mem _ (h3 x hx)⟩
      · rw [if_neg hws] at h
        rcases List.mem_cons.mp h with h | h
        · subst h
          refine ⟨by simp, ?_, ?_⟩
          · intro x hx
            rcases List.mem_cons.mp hx with hx | hx
            · subst hx; exact Bool.of_not_eq_true hws
            · have := List.mem_takeWhile_imp hx
              simpa using this
          · intro x hx
            rcases List.mem_cons.mp hx with hx | hx
            · subst hx; exact List.mem_cons_self _ _
            · exact List.mem_cons_of_mem _ ((List.takeWhile_sublist _).subset hx)
        · obtain ⟨h1, h2, h3⟩ := ih _ w h
          exact ⟨h1, h2, fun x hx =>
            List.mem_cons_of_mem _ ((List.dropWhile_sublist _).subset (h3 x hx))⟩

theorem pySplitAux_fuel :
    ∀ (fuel fuel' : Nat) (l : List Char), l.length ≤ fuel → l.length ≤ fuel' →
      pySplitAux fuel l = pySplitAux fuel' l := by
  intro fuel
  induction fuel with
  | zero =>
    intro fuel' l hf _
    cases l with
    | nil => cases fuel' <;> rfl
    | cons c cs => simp at hf
  | succ n ih =>
    intro fuel' l hf hf'
    cases l with
    | nil => cases fuel' <;> rfl
    | cons c cs =>
      cases fuel' with
      | zero => simp at hf'
      | succ m =>
        rw [pySplitAux, pySplitAux]
        rw [List.length_cons] at hf hf'
        by_cases hws : c.isWhitespace
        · rw [if_pos hws, if_pos hws,
            ih m cs (Nat.le_of_succ_le_succ hf) (Nat.le_of_succ_le_succ hf')]
        · rw [if_neg hws, if_neg hws,
            ih m _ (le_trans (List.dropWhile_sublist _).length_le (Nat.le_of_succ_le_succ hf))
              (le_trans (List.dropWhile_sublist _).length_le (Nat.le_of_succ_le_succ hf'))]

theorem takeWhile_append_of_all {p : Char → Bool} {w l : List Char}
    (h : ∀ c ∈ w, p c = true) :
    List.takeWhile p (w ++ l) = w ++ List.takeWhile p l := by
  rw [List.takeWhile_append, if_pos]
  rw [List.takeWhile_eq_self_iff.mpr h]

theorem dropWhile_append_of_all {p : Char → Bool} {w l : List Char}
    (h : ∀ c ∈ w, p c = true) :
    List.dropWhile p (w ++ l) = List.dropWhile p l := by
  rw [List.dropWhile_append, if_pos]
  rw [List.dropWhile_eq_nil_iff.mpr h]
  rfl

theorem pySplitAux_token_step {w r : List Char} (hne : w ≠ [])
    (hnw : ∀ c ∈ w, c.isWhitespace = false) :
    ∀ fuel, (w ++ ' ' :: r).length ≤ fuel →
      pySplitAux fuel (w ++ ' ' :: r) = w :: pySplit r := by
  cases w with
  | nil => cases hne rfl
  | cons a w' =>
    intro fuel hf
    cases fuel with
    | zero => simp at hf
    | succ n =>
      have ha : a.isWhitespace = false := hnw a (List.mem_cons_self _ _)
      have hw' : ∀ c ∈ w', c.isWhitespace = false :=
        fun c hc => hnw c (List.mem_cons_of_mem _ hc)
      have hw'' : ∀ c ∈ w', (fun d => !d.isWhitespace) c = true := by
        intro c hc; simp [hw' c hc]
      rw [List.cons_append, pySplitAux, if_neg (by simp [ha])]
      have htake : List.takeWhile (fun d => !d.isWhitespace) (w' ++ ' ' :: r) = w' := by
        rw [takeWhile_append_of_all hw'']
        simp [List.takeWhile]
      have hdrop : List.dropWhile (fun d => !d.isWhitespace) (w' ++ ' ' :: r) = ' ' :: r := by
        rw [dropWhile_append_of_all hw'']
        simp [List.dropWhile]
      rw [htake, hdrop]
      have hlen : r.length + 1 ≤ n := by
        simp [List.length_append] at hf
        omega
      cases n with
      | zero => omega
      | succ m =>
        rw [pySplitAux, if_pos (by decide)]
        rw [pySplitAux_fuel m r.length r (by omega) le_rfl]
        rfl

theorem pySplit_single {w : List Char} (hne : w ≠ [])
    (hnw : ∀ c ∈ w, c.isWhitespace = false) : pySplit w = [w] := by
  cases w with
  | nil => cases hne rfl
  | cons a w' =>
    have ha : a.isWhitespace = false := hnw a (List.mem_cons_self _ _)
    have hw'' : ∀ c ∈ w', (fun d => !d.isWhitespace) c = true := by
      intro c hc; simp [hnw c (List.mem_cons_of_mem _ hc)]
    rw [pySplit, List.length_cons, pySplitAux, if_neg (by simp [ha])]
    rw [List.takeWhile_eq_self_iff.mpr hw'', List.dropWhile_eq_nil_iff.mpr hw'']
    cases w' <;> rfl

theorem pySplit_joinWords :
    ∀ ws : List (List Char),
      (∀ w ∈ ws, w ≠ [] ∧ ∀ c ∈ w, c.isWhitespace = false) →
      pySplit (joinWords ws) = ws := by
  intro ws
  induction ws with
  | nil => intro _; rfl
  | cons w vs ih =>
    intro h
    obtain ⟨hne, hnw⟩ := h w (List.mem_cons_self _ _)
    cases vs with
    | nil => exact pySplit_single hne hnw
    | cons v vs' =>
      rw [joinWords, pySplit,
        pySplitAux_token_step hne hnw _ le_rfl,
        ih (fun u hu => h u (List.mem_cons_of_mem _ hu))]

/-! ## Lemmas about `joinWords` -/

theorem joinWords_cons_decomp (w : List Char) (ws : List (List Char)) :
    ∃ t, joinWords (w :: ws) = w ++ t := by
  cases ws with
  | nil => exact ⟨[], by simp [joinWords]⟩
  | cons v ws' => exact ⟨' ' :: joinWords (v :: ws'), rfl⟩

theorem mem_joinWords {x : Char} :
    ∀ ws : List (List Char), x ∈ joinWords ws → (∃ w ∈ ws, x ∈ w) ∨ x = ' ' := by
  intro ws
  induction ws with
  | nil => intro h; simp [joinWords] at h
  | cons w vs ih =>
    intro h
    cases vs with
    | nil =>
      simp only [joinWords] at h
      exact Or.inl ⟨w, List.mem_cons_self _ _, h⟩
    | cons v vs' =>
      rw [joinWords] at h
      rcases List.mem_append.mp h with h | h
      · exact Or.inl ⟨w, List.mem_cons_self _ _, h⟩
      · rcases List.mem_cons.mp h with h | h
        · exact Or.inr h
        · rcases ih h with ⟨u, hu, hx⟩ | h
          · exact Or.inl ⟨u, List.mem_cons_of_mem _ hu, hx⟩
          · exact Or.inr h

theorem joinWords_getLast? :
    ∀ ws : List (List Char), (∀ w ∈ ws, w ≠ []) → ws ≠ [] →
      ∃ w ∈ ws, (joinWords ws).getLast? = w.getLast? ∧ w ≠ [] := by
  intro ws
  induction ws with
  | nil => intro _ h; cases h rfl
  | cons w vs ih =>
    intro h _
    cases vs with
    | nil => exact ⟨w, List.mem_cons_self _ _, by simp [joinWords], h w (List.mem_cons_self _ _)⟩
    | cons v vs' =>
      obtain ⟨u, hu, hlast, hune⟩ :=
        ih (fun x hx => h x (List.mem_cons_of_mem _ hx)) (by simp)
      refine ⟨u, List.mem_cons_of_mem _ hu, ?_, hune⟩
      rw [joinWords, List.getLast?_append]
      have hj : (joinWords (v :: vs')).getLast? = u.getLast? := hlast
      have : (' ' :: joinWords (v :: vs')).getLast? = u.getLast? := by
        obtain ⟨t, ht⟩ := joinWords_cons_decomp v vs'
        have hne : joinWords (v :: vs') ≠ [] := by
          rw [ht]
          have : v ≠ [] := h v (List.mem_cons_of_mem _ (List.mem_cons_self _ _))
          cases v with
          | nil => cases this rfl
          | cons a v' => simp
        rw [show (' ' :: joinWords (v :: vs')) = [' '] ++ joinWords (v :: vs') from rfl,
          List.getLast?_append, ← hj]
        cases hg : (joinWords (v :: vs')).getLast? with
        | none => cases hne (List.getLast?_eq_none_iff.mp hg)
        | some y => rfl
      rw [this]
      cases hg : u.getLast? with
      | none => cases hune (List.getLast?_eq_none_iff.mp hg)
      | some y => rfl

theorem noDoubleSpace_append_of_no_space {w l : List Char}
    (hw : ∀ c ∈ w, c ≠ ' ') (hl : noDoubleSpace l = true) :
    noDoubleSpace (w ++ l) = true := by
  induction w with
  | nil => simpa using hl
  | cons a w' ih =>
    have ha : a ≠ ' ' := hw a (List.mem_cons_self _ _)
    have ih' := ih (fun c hc => hw c (List.mem_cons_of_mem _ hc))
    rw [List.cons_append]
    cases hcase : w' ++ l with
    | nil => rfl
    | cons d rest =>
      rw [noDoubleSpace, ← hcase, ih', Bool.and_true]
      simp [ha]

theorem cleanChars_decomp (l : List Char) :
    ∃ ws, cleanChars l = joinWords ws ∧
      (∀ w ∈ ws, w ≠ [] ∧ ∀ c ∈ w, c.isWhitespace = false) ∧
      (∀ w ∈ ws, ∀ c ∈ w, keepChar c = true ∧ c ∈ l.map Char.toLower) := by
  refine ⟨pySplit ((stripURLs (l.map Char.toLower)).filter keepChar), rfl, ?_, ?_⟩
  · intro w hw
    obtain ⟨h1, h2, _⟩ := pySplitAux_tokens _ _ _ hw
    exact ⟨h1, h2⟩
  · intro w hw c hc
    obtain ⟨_, _, h3⟩ := pySplitAux_tokens _ _ _ hw
    have hmem := h3 c hc
    refine ⟨List.of_mem_filter hmem, ?_⟩
    exact mem_stripURLsAux _ _ (List.mem_of_mem_filter hmem)

theorem cleanChars_char_cases {l : List Char} {c : Char} (h : c ∈ cleanChars l) :
    (wordChar c = true ∧ c.toLower = c ∧ c.isWhitespace = false) ∨ c = ' ' := by
  obtain ⟨ws, heq, htok, hchar⟩ := cleanChars_decomp l
  rw [heq] at h
  rcases mem_joinWords _ h with ⟨w, hw, hc⟩ | h
  · obtain ⟨hk, hm⟩ := hchar w hw c hc
    have hnw : c.isWhitespace = false := (htok w hw).2 c hc
    obtain ⟨d, _, hd⟩ := List.mem_map.mp hm
    refine Or.inl ⟨wordChar_of_keep_not_ws hk hnw, ?_, hnw⟩
    rw [← hd, toLower_idem]
  · exact Or.inr h

theorem noDoubleSpace_joinWords :
    ∀ ws : List (List Char),
      (∀ w ∈ ws, w ≠ [] ∧ ∀ c ∈ w, c.isWhitespace = false) →
      noDoubleSpace (joinWords ws) = true := by
  intro ws
  induction ws with
  | nil => intro _; rfl
  | cons w vs ih =>
    intro h
    obtain ⟨hne, hnw⟩ := h w (List.mem_cons_self _ _)
    have hwns : ∀ c ∈ w, c ≠ ' ' := fun c hc => ne_space_of_not_ws (hnw c hc)
    cases vs with
    | nil =>
      rw [joinWords, show w = w ++ [] by simp]
      exact noDoubleSpace_append_of_no_space hwns rfl
    | cons v vs' =>
      have ih' := ih (fun u hu => h u (List.mem_cons_of_mem _ hu))
      rw [joinWords]
      apply noDoubleSpace_append_of_no_space hwns
      obtain ⟨hvne, hvnw⟩ := h v (List.mem_cons_of_mem _ (List.mem_cons_self _ _))
      obtain ⟨t, ht⟩ := joinWords_cons_decomp v vs'
      cases v with
      | nil => cases hvne rfl
      | cons a v' =>
        have ha : a ≠ ' ' := ne_space_of_not_ws (hvnw a (List.mem_cons_self _ _))
        rw [ht, List.cons_append, noDoubleSpace, ← List.cons_append, ← ht, ih',
          Bool.and_true]
        simp [ha]

/-- C5 counterexample: `clean_text` is not idempotent.  On input `"ht!tpx"`
the first pass deletes only the `'!'`, producing `"httpx"`, and the second
pass then deletes `"httpx"` as a URL-regex match, producing `""`. -/
theorem c5_counterexample :
    TextPreprocessor.clean_text (TextPreprocessor.clean_text "ht!tpx") ≠
        TextPreprocessor.clean_text "ht!tpx" ∧
      TextPreprocessor.clean_text "ht!tpx" = "httpx" ∧
      TextPreprocessor.clean_text (TextPreprocessor.clean_text "ht!tpx") = "" := by
  decide

/-- C5 (amended): text normalization is idempotent on every string `x` whose
cleaned form contains no occurrence of the URL pattern (no position starting
with `http` or `www` followed by a non-whitespace character):
`clean(clean(x)) = clean(x)` for all such `x`. -/
theorem c5_clean_text_idempotent_amended (s : String)
    (h : hasURL (TextPreprocessor.clean_text s).data = false) :
    TextPreprocessor.clean_text (TextPreprocessor.clean_text s) =
      TextPreprocessor.clean_text s := by
  have hdata : (TextPreprocessor.clean_text s).data = cleanChars s.data := rfl
  rw [hdata] at h
  show String.mk (cleanChars (TextPreprocessor.clean_text s).data) =
    TextPreprocessor.clean_text s
  rw [TextPreprocessor.clean_text]
  congr 1
  set t := cleanChars s.data with ht
  have hA : t.map Char.toLower = t := by
    have : ∀ c ∈ t, c.toLower = id c := by
      intro c hc
      rcases cleanChars_char_cases (ht ▸ hc) with ⟨_, h2, _⟩ | hsp
      · exact h2
      · subst hsp; decide
    rw [List.map_congr_left this, List.map_id]
  have hB : stripURLs t = t := stripURLs_eq_self h
  have hC : t.filter keepChar = t := by
    apply List.filter_eq_self.mpr
    intro c hc
    rcases cleanChars_char_cases (ht ▸ hc) with ⟨h1, _, _⟩ | hsp
    · simp [keepChar, h1]
    · subst hsp; decide
  obtain ⟨ws, heq, htok, _⟩ := cleanChars_decomp s.data
  rw [cleanChars, hA, hB, hC, ht, heq, pySplit_joinWords ws htok]

/-- C5 witness: the amended idempotence theorem applied at a concrete
input whose cleaned form contains no URL pattern. -/
theorem c5_amended_witness :
    hasURL (TextPreprocessor.clean_text "Check $AAPL now!! @bob").data = false ∧
      TextPreprocessor.clean_text (TextPreprocessor.clean_text "Check $AAPL now!! @bob") =
        TextPreprocessor.clean_text "Check $AAPL now!! @bob" :=
  ⟨by decide, c5_clean_text_idempotent_amended _ (by decide)⟩

/-- C10: for every input, present or missing, `clean_text` returns a string
made only of word characters and single spaces: every character is a word
character or `' '`, the first and last characters (when present) are word
characters (no leading/trailing whitespace), and no two consecutive spaces
occur.  (On a missing input, and in the source also on any internal
exception, the result is the empty string, which trivially has this shape.) -/
theorem c10_clean_text_shape (t : Option String) :
    (∀ c ∈ (clean_opt t).data, wordChar c = true ∨ c = ' ') ∧
      (∀ c, (clean_opt t).data.head? = some c → wordChar c = true) ∧
      (∀ c, (clean_opt t).data.getLast? = some c → wordChar c = true) ∧
      noDoubleSpace (clean_opt t).data = true := by
  cases t with
  | none => exact ⟨by simp [clean_opt], by simp [clean_opt], by simp [clean_opt], rfl⟩
  | some s =>
    have hdata : (clean_opt (some s)).data = cleanChars s.data := rfl
    rw [hdata]
    obtain ⟨ws, heq, htok, hchar⟩ := cleanChars_decomp s.data
    refine ⟨?_, ?_, ?_, ?_⟩
    · intro c hc
      rcases cleanChars_char_cases hc with ⟨h1, _, _⟩ | hsp
      · exact Or.inl h1
      · exact Or.inr hsp
    · intro c hc
      rw [heq] at hc
      cases ws with
      | nil => simp [joinWords] at hc
      | cons w vs =>
        obtain ⟨hne, hnw⟩ := htok w (List.mem_cons_self _ _)
        obtain ⟨u, hu⟩ := joinWords_cons_decomp w vs
        rw [hu, List.head?_append] at hc
        cases w with
        | nil => cases hne rfl
        | cons a w' =>
          rw [List.head?_cons] at hc
          have hac : a = c := by simpa [Option.or] using hc
          subst hac
          have hmem : a ∈ (a :: w') := List.mem_cons_self _ _
          exact wordChar_of_keep_not_ws
            (hchar _ (List.mem_cons_self _ _) a hmem).1 (hnw a hmem)
    · intro c hc
      rw [heq] at hc
      by_cases hwsnil : ws = []
      · subst hwsnil; simp [joinWords] at hc
      · obtain ⟨u, hu, hlast, hune⟩ :=
          joinWords_getLast? ws (fun w hw => (htok w hw).1) hwsnil
        have hus : u.getLast? = some c := by rw [← hlast]; exact hc
        obtain ⟨hne', hcu⟩ := List.mem_getLast?_eq_getLast (Option.mem_def.mpr hus)
        have hcmem : c ∈ u := hcu ▸ List.getLast_mem hne'
        exact wordChar_of_keep_not_ws
          (hchar u hu c hcmem).1 ((htok u hu).2 c hcmem)
    · rw [heq]
      exact noDoubleSpace_joinWords ws htok

/-! ## Lemmas about ordered counting -/

theorem mem_foldl_dedup {α : Type} [DecidableEq α] (x : α) :
    ∀ (l acc : List α),
      (x ∈ l.foldl (fun acc w => if w ∈ acc then acc else acc ++ [w]) acc) ↔
        x ∈ acc ∨ x ∈ l := by
  intro l
  induction l with
  | nil => intro acc; simp
  | cons w l ih =>
    intro acc
    rw [List.foldl_cons, ih]
    by_cases hw : w ∈ acc
    · rw [if_pos hw]
      constructor
      · rintro (h | h)
        · exact Or.inl h
        · exact Or.inr (List.mem_cons_of_mem _ h)
      · rintro (h | h)
        · exact Or.inl h
        · rcases List.mem_cons.mp h with rfl | h
          · exact Or.inl hw
          · exact Or.inr h
    · rw [if_neg hw]
      constructor
      · rintro (h | h)
        · rcases List.mem_append.mp h with h | h
          · exact Or.inl h
          · simp at h; exact Or.inr (h ▸ List.mem_cons_self _ _)
        · exact Or.inr (List.mem_cons_of_mem _ h)
      · rintro (h | h)
        · exact Or.inl (List.mem_append.mpr (Or.inl h))
        · rcases List.mem_cons.mp h with rfl | h
          · exact Or.inl (List.mem_append.mpr (Or.inr (by simp)))
          · exact Or.inr h

theorem mem_dedupKeepFirst {α : Type} [DecidableEq α] {x : α} {l : List α} :
    x ∈ dedupKeepFirst l ↔ x ∈ l := by
  rw [dedupKeepFirst, mem_foldl_dedup]
  simp

theorem nodup_foldl_dedup {α : Type} [DecidableEq α] :
    ∀ (l acc : List α), acc.Nodup →
      (l.foldl (fun acc w => if w ∈ acc then acc else acc ++ [w]) acc).Nodup := by
  intro l
  induction l with
  | nil => intro acc h; exact h
  | cons w l ih =>
    intro acc h
    rw [List.foldl_cons]
    by_cases hw : w ∈ acc
    · rw [if_pos hw]; exact ih acc h
    · rw [if_neg hw]
      refine ih _ ?_
      rw [List.nodup_append]
      exact ⟨h, List.nodup_singleton _, fun a ha hb => by simp at hb; exact hw (hb ▸ ha)⟩

theorem nodup_dedupKeepFirst {α : Type} [DecidableEq α] (l : List α) :
    (dedupKeepFirst l).Nodup :=
  nodup_foldl_dedup l [] List.nodup_nil

theorem dedupKeepFirst_append_singleton {α : Type} [DecidableEq α] (p : List α) (w : α) :
    dedupKeepFirst (p ++ [w]) =
      if w ∈ dedupKeepFirst p then dedupKeepFirst p else dedupKeepFirst p ++ [w] := by
  rw [dedupKeepFirst, dedupKeepFirst, List.foldl_append]
  rfl

theorem countsInOrder_append_singleton {α : Type} [DecidableEq α] (p : List α) (w : α) :
    countsInOrder (p ++ [w]) = bumpCount (countsInOrder p) w := by
  rw [countsInOrder, countsInOrder, List.foldl_append]
  rfl

theorem bumpCount_map_mem {α : Type} [DecidableEq α] (g : α → Nat) (w : α) :
    ∀ keys : List α, keys.Nodup → w ∈ keys →
      bumpCount (keys.map (fun k => (k, g k))) w =
        keys.map (fun k => (k, g k + if k = w then 1 else 0)) := by
  intro keys
  induction keys with
  | nil => intro _ h; cases h
  | cons k keys' ih =>
    intro hnd hmem
    rw [List.map_cons, List.map_cons, bumpCount]
    by_cases hkw : k = w
    · rw [if_pos hkw, if_pos hkw]
      congr 1
      apply List.map_congr_left
      intro j hj
      have hjw : j ≠ w := by
        intro hje
        exact (List.nodup_cons.mp hnd).1 (hkw ▸ hje ▸ hj)
      rw [if_neg hjw, Nat.add_zero]
    · rw [if_neg hkw, if_neg hkw, Nat.add_zero]
      congr 1
      exact ih (List.nodup_cons.mp hnd).2
        ((List.mem_cons.mp hmem).resolve_left (fun h => hkw h.symm))

theorem bumpCount_map_not_mem {α : Type} [DecidableEq α] (g : α → Nat) (w : α) :
    ∀ keys : List α, w ∉ keys →
      bumpCount (keys.map (fun k => (k, g k))) w =
        keys.map (fun k => (k, g k)) ++ [(w, 1)] := by
  intro keys
  induction keys with
  | nil => intro _; rfl
  | cons k keys' ih =>
    intro hmem
    rw [List.map_cons, bumpCount]
    have hkw : k ≠ w := fun h => hmem (h ▸ List.mem_cons_self _ _)
    rw [if_neg hkw]
    congr 1
    exact ih (fun h => hmem (List.mem_cons_of_mem _ h))

theorem countsInOrder_eq {α : Type} [DecidableEq α] (l : List α) :
    countsInOrder l = (dedupKeepFirst l).map (fun w => (w, l.count w)) := by
  induction l using List.reverseRecOn with
  | nil => rfl
  | append_singleton p w ih =>
    rw [countsInOrder_append_singleton, ih, dedupKeepFirst_append_singleton]
    by_cases hw : w ∈ dedupKeepFirst p
    · rw [if_pos hw]
      rw [bumpCount_map_mem _ _ _ (nodup_dedupKeepFirst p) hw]
      apply List.map_congr_left
      intro k _
      rw [List.count_append]
      congr 1
      by_cases hkw : k = w
      · subst hkw; simp
      · simp [List.count_singleton', hkw]
    · rw [if_neg hw]
      rw [bumpCount_map_not_mem _ _ _ hw, List.map_append]
      congr 1
      · apply List.map_congr_left
        intro k hk
        have hkw : k ≠ w := fun h => hw (h ▸ hk)
        rw [List.count_append]
        simp [List.count_singleton', hkw]
      · have hwp : w ∉ p := fun h => hw (mem_dedupKeepFirst.mpr h)
        simp [List.count_append, List.count_eq_zero.mpr hwp]

/-! ## Lemmas about the stable descending sort -/

theorem insertByCount_perm {α : Type} (x : α × Nat) :
    ∀ l : List (α × Nat), (insertByCount x l).Perm (x :: l) := by
  intro l
  induction l with
  | nil => exact List.Perm.refl _
  | cons y ys ih =>
    rw [insertByCount]
    by_cases h : y.2 ≤ x.2
    · rw [if_pos h]
    · rw [if_neg h]
      exact (ih.cons y).trans (List.Perm.swap x y ys)

theorem sortByCountDesc_perm {α : Type} (l : List (α × Nat)) :
    (sortByCountDesc l).Perm l := by
  induction l with
  | nil => exact List.Perm.refl _
  | cons x l ih =>
    have : sortByCountDesc (x :: l) = insertByCount x (sortByCountDesc l) := rfl
    rw [this]
    exact (insertByCount_perm x _).trans (ih.cons x)

theorem mem_insertByCount {α : Type} {z x : α × Nat} {l : List (α × Nat)}
    (h : z ∈ insertByCount x l) : z = x ∨ z ∈ l :=
  List.mem_cons.mp ((insertByCount_perm x l).subset h)

theorem insertByCount_sorted {α : Type} (x : α × Nat) :
    ∀ l : List (α × Nat), l.Pairwise (fun a b => b.2 ≤ a.2) →
      (insertByCount x l).Pairwise (fun a b => b.2 ≤ a.2) := by
  intro l
  induction l with
  | nil => intro _; exact List.pairwise_singleton _ _
  | cons y ys ih =>
    intro hl
    obtain ⟨hy, hys⟩ := List.pairwise_cons.mp hl
    rw [insertByCount]
    by_cases h : y.2 ≤ x.2
    · rw [if_pos h]
      refine List.pairwise_cons.mpr ⟨?_, hl⟩
      intro z hz
      rcases List.mem_cons.mp hz with rfl | hz
      · exact h
      · exact le_trans (hy z hz) h
    · rw [if_neg h]
      refine List.pairwise_cons.mpr ⟨?_, ih hys⟩
      intro z hz
      rcases mem_insertByCount hz with rfl | hz
      · exact le_of_not_le h
      · exact hy z hz

theorem sortByCountDesc_sorted {α : Type} (l : List (α × Nat)) :
    (sortByCountDesc l).Pairwise (fun a b => b.2 ≤ a.2) := by
  induction l with
  | nil => exact List.Pairwise.nil
  | cons x l ih => exact insertByCount_sorted x _ ih

theorem insertByCount_filter_count {α : Type} (x : α × Nat) (c : Nat) :
    ∀ l : List (α × Nat),
      (insertByCount x l).filter (fun p => p.2 = c) =
        if x.2 = c then x :: l.filter (fun p => p.2 = c)
        else l.filter (fun p => p.2 = c) := by
  intro l
  induction l with
  | nil =>
    rw [insertByCount]
    by_cases h : x.2 = c
    · simp [List.filter_singleton, h]
    · simp [List.filter_singleton, h]
  | cons y ys ih =>
    rw [insertByCount]
    by_cases h : y.2 ≤ x.2
    · rw [if_pos h]
      by_cases hx : x.2 = c
      · simp [List.filter_cons, hx]
      · simp [List.filter_cons, hx]
    · rw [if_neg h]
      by_cases hx : x.2 = c
      · have hy : ¬ (y.2 = c) := fun hyc => h (le_of_eq (hx ▸ hyc))
        simp [List.filter_cons, ih, hx, hy]
      · simp [List.filter_cons, ih, hx]

theorem sortByCountDesc_filter_count {α : Type} (l : List (α × Nat)) (c : Nat) :
    (sortByCountDesc l).filter (fun p => p.2 = c) = l.filter (fun p => p.2 = c) := by
  induction l with
  | nil => rfl
  | cons x l ih =>
    have hrw : sortByCountDesc (x :: l) = insertByCount x (sortByCountDesc l) := rfl
    rw [hrw, insertByCount_filter_count]
    by_cases hx : x.2 = c
    · simp [List.filter_cons, hx, ih]
    · simp [List.filter_cons, hx, ih]

/-- C3: `identify_trending_topics` returns exactly the `(token, count)`
pairs of the first-encounter-deduplicated tokens (texts joined, lowercased,
whitespace-split, stop words and tokens of length `≤ 2` dropped) whose count
reaches the threshold: the result is a permutation of those pairs, its counts
are in descending order, and for every count value the pairs carrying that
count appear exactly in first-encountered order (stable sort). -/
theorem c3_trending_topics (texts : List String) (min_count : Nat) :
    (DataProcessor.identify_trending_topics texts min_count).Perm
        (((dedupKeepFirst (trendingTokens texts)).filter
            (fun w => min_count ≤ (trendingTokens texts).count w)).map
          (fun w => (w, (trendingTokens texts).count w))) ∧
      (DataProcessor.identify_trending_topics texts min_count).Pairwise
        (fun a b => b.2 ≤ a.2) ∧
      ∀ c, (DataProcessor.identify_trending_topics texts min_count).filter
          (fun p => p.2 = c) =
        (((dedupKeepFirst (trendingTokens texts)).filter
            (fun w => min_count ≤ (trendingTokens texts).count w)).map
          (fun w => (w, (trendingTokens texts).count w))).filter
          (fun p => p.2 = c) := by
  set toks := trendingTokens texts with htoks
  have hpre : (countsInOrder toks).filter (fun p => decide (min_count ≤ p.2)) =
      ((dedupKeepFirst toks).filter (fun w => min_count ≤ toks.count w)).map
        (fun w => (w, toks.count w)) := by
    rw [countsInOrder_eq, List.filter_map]
    rfl
  have hid : DataProcessor.identify_trending_topics texts min_count =
      sortByCountDesc ((countsInOrder toks).filter (fun p => decide (min_count ≤ p.2))) :=
    rfl
  refine ⟨?_, ?_, ?_⟩
  · rw [hid, hpre]
    exact sortByCountDesc_perm _
  · rw [hid]
    exact sortByCountDesc_sorted _
  · intro c
    rw [hid, hpre, sortByCountDesc_filter_count]

/-! ## Lemmas about the DataFrame model -/

theorem lookupCol_replaceCol_same (n : String) (c : Col) :
    ∀ cols : List (String × Col), cols.any (fun p => p.1 == n) = true →
      lookupCol n (replaceCol n c cols) = .ok c := by
  intro cols
  induction cols with
  | nil => intro h; cases h
  | cons p ps ih =>
    intro h
    rw [replaceCol]
    by_cases hp : p.1 == n
    · rw [if_pos hp, lookupCol, if_pos hp]
    · rw [if_neg hp, lookupCol, if_neg hp]
      rw [List.any_cons, Bool.or_eq_true] at h
      exact ih (h.resolve_left hp)

theorem lookupCol_append_not_mem (n : String) (c : Col) :
    ∀ cols : List (String × Col), cols.any (fun p => p.1 == n) = false →
      lookupCol n (cols ++ [(n, c)]) = .ok c := by
  intro cols
  induction cols with
  | nil => simp [lookupCol]
  | cons p ps ih =>
    intro h
    rw [List.any_cons, Bool.or_eq_false_iff] at h
    rw [List.cons_append, lookupCol, if_neg (by rw [h.1]; exact Bool.false_ne_true)]
    exact ih h.2

theorem lookupCol_replaceCol_ne (n m : String) (c : Col) (hnm : ¬ m = n) :
    ∀ cols : List (String × Col), lookupCol m (replaceCol n c cols) = lookupCol m cols := by
  intro cols
  induction cols with
  | nil => rfl
  | cons p ps ih =>
    rw [replaceCol]
    by_cases hp : p.1 == n
    · have hpm : (p.1 == m) = false := by
        have hpn : p.1 = n := by simpa using hp
        have hne : ¬ n = m := fun hh => hnm hh.symm
        simp [hpn, hne]
      rw [if_pos hp, lookupCol, lookupCol, if_neg (by rw [hpm]; exact Bool.false_ne_true),
        if_neg (by rw [hpm]; exact Bool.false_ne_true), ih]
    · rw [if_neg hp, lookupCol, lookupCol]
      by_cases hpm : p.1 == m
      · rw [if_pos hpm, if_pos hpm]
      · rw [if_neg hpm, if_neg hpm, ih]

theorem lookupCol_append_ne (n m : String) (c : Col) (hnm : ¬ m = n) :
    ∀ cols : List (String × Col), lookupCol m (cols ++ [(n, c)]) = lookupCol m cols := by
  intro cols
  induction cols with
  | nil =>
    have hne : ¬ n = m := fun hh => hnm hh.symm
    simp [lookupCol, hne]
  | cons p ps ih =>
    rw [List.cons_append, lookupCol, lookupCol]
    by_cases hpm : p.1 == m
    · rw [if_pos hpm, if_pos hpm]
    · rw [if_neg hpm, if_neg hpm, ih]

theorem getCol_setCol_same (df : DF) (n : String) (c : Col) :
    (df.setCol n c).getCol n = .ok c := by
  rw [DF.setCol]
  by_cases h : df.hasCol n
  · rw [if_pos h]
    exact lookupCol_replaceCol_same n c df.cols h
  · rw [if_neg h]
    exact lookupCol_append_not_mem n c df.cols (Bool.eq_false_iff.mpr h)

theorem getCol_setCol_ne (df : DF) {n m : String} (c : Col) (hnm : ¬ m = n) :
    (df.setCol n c).getCol m = df.getCol m := by
  rw [DF.setCol]
  by_cases h : df.hasCol n
  · rw [if_pos h]
    exact lookupCol_replaceCol_ne n m c hnm df.cols
  · rw [if_neg h]
    exact lookupCol_append_ne n m c hnm df.cols

theorem replaceCol_any_name (n m : String) (c : Col) :
    ∀ cols : List (String × Col),
      (replaceCol n c cols).any (fun p => p.1 == m) = cols.any (fun p => p.1 == m) := by
  intro cols
  induction cols with
  | nil => rfl
  | cons p ps ih =>
    rw [replaceCol]
    by_cases hp : p.1 == n
    · rw [if_pos hp, List.any_cons, List.any_cons, ih]
    · rw [if_neg hp, List.any_cons, List.any_cons, ih]

theorem hasCol_setCol (df : DF) (n m : String) (c : Col) :
    (df.setCol n c).hasCol m = (df.hasCol m || n == m) := by
  rw [DF.setCol]
  by_cases h : df.hasCol n
  · rw [if_pos h]
    show (replaceCol n c df.cols).any (fun p => p.1 == m) = _
    rw [replaceCol_any_name]
    by_cases hnm : n == m
    · have hmn : n = m := by simpa using hnm
      have : df.hasCol m = true := hmn ▸ h
      rw [show df.cols.any (fun p => p.1 == m) = df.hasCol m from rfl, this, hnm]
      rfl
    · rw [show df.cols.any (fun p => p.1 == m) = df.hasCol m from rfl]
      simp [hnm]
  · rw [if_neg h]
    show (df.cols ++ [(n, c)]).any (fun p => p.1 == m) = _
    rw [List.any_append]
    show (df.hasCol m || [(n, c)].any (fun p => p.1 == m)) = _
    congr 1
    simp

theorem hasCol_setCol_same (df : DF) (n : String) (c : Col) :
    (df.setCol n c).hasCol n = true := by
  rw [hasCol_setCol]
  simp

theorem hasCol_setCol_mono {df : DF} {m : String} (h : df.hasCol m = true)
    (n : String) (c : Col) : (df.setCol n c).hasCol m = true := by
  rw [hasCol_setCol, h]
  rfl

theorem ne_of_hasCol_ne {df df' : DF} {n : String}
    (h : df.hasCol n = true) (h' : df'.hasCol n = false) : df ≠ df' := by
  intro he
  rw [he, h'] at h
  cases h

theorem lookupCol_ok_mem {n : String} {c : Col} :
    ∀ cols : List (String × Col), lookupCol n cols = .ok c → ∃ nm, (nm, c) ∈ cols := by
  intro cols
  induction cols with
  | nil => intro h; cases h
  | cons p ps ih =>
    intro h
    rw [lookupCol] at h
    by_cases hp : p.1 == n
    · rw [if_pos hp] at h
      injection h with h2
      exact ⟨p.1, by rw [← h2]; exact List.mem_cons_self _ _⟩
    · rw [if_neg hp] at h
      obtain ⟨nm, hmem⟩ := ih h
      exact ⟨nm, List.mem_cons_of_mem _ hmem⟩

/-! ## Lemmas about `mapM` over `Except` -/

theorem mapM_ok_of_pointwise {α β : Type} {F : α → Except String β} {f : α → β} :
    ∀ l : List α, (∀ x ∈ l, F x = .ok (f x)) → l.mapM F = .ok (l.map f) := by
  intro l
  induction l with
  | nil => intro _; rfl
  | cons a l ih =>
    intro h
    rw [List.mapM_cons, h a (List.mem_cons_self _ _),
      ih (fun x hx => h x (List.mem_cons_of_mem _ hx))]
    rfl

theorem mapM_ok_length {α β : Type} {F : α → Except String β} :
    ∀ {l : List α} {l' : List β}, l.mapM F = .ok l' → l'.length = l.length := by
  intro l
  induction l with
  | nil =>
    intro l' h
    rw [List.mapM_nil] at h
    have : ([] : List β) = l' := by
      simpa [pure, Except.pure] using h
    rw [← this]
    rfl
  | cons a l ih =>
    intro l' h
    rw [List.mapM_cons] at h
    rcases ha : F a with e | b
    · rw [ha] at h; simp [Except.bind, bind] at h
    · rw [ha] at h
      rcases hl : l.mapM F with e | bs
      · rw [hl] at h; simp [Except.bind, bind] at h
      · rw [hl] at h
        simp [Except.bind, bind, pure, Except.pure] at h
        subst h
        simp [ih hl]

/-! ## Lemmas about the validator -/

theorem validate_spec {df : DF} (h : DataValidator.validate_reddit_data df = true) :
    ∃ title score created nc ur,
      df.getCol "title" = .ok title ∧ df.getCol "score" = .ok score ∧
        df.getCol "created_utc" = .ok created ∧ df.getCol "num_comments" = .ok nc ∧
        df.getCol "upvote_ratio" = .ok ur ∧
        isNumericDtype score.dtype = true ∧ isDatetimeDtype created.dtype = true ∧
        isNumericDtype nc.dtype = true ∧ isFloatDtype ur.dtype = true ∧
        title.cells.any Cell.isNull = false ∧ df.hasCol "text" = true := by
  rw [DataValidator.validate_reddit_data] at h
  by_cases hreq : required_columns.all (fun c => df.hasCol c) = true
  · rw [if_neg (by rw [hreq]; intro hc; cases hc)] at h
    have htext : df.hasCol "text" = true := by
      have := List.all_eq_true.mp hreq "text" (by rw [required_columns]; simp)
      simpa using this
    rcases h1 : df.getCol "score" with e | score <;> rw [h1] at h
    · cases h
    rcases h2 : df.getCol "created_utc" with e | created <;> rw [h2] at h
    · cases h
    rcases h3 : df.getCol "num_comments" with e | nc <;> rw [h3] at h
    · cases h
    rcases h4 : df.getCol "upvote_ratio" with e | ur <;> rw [h4] at h
    · cases h
    rcases h5 : df.getCol "title" with e | title <;> rw [h5] at h
    · cases h
    simp only [Bool.and_eq_true, Bool.not_eq_true'] at h
    exact ⟨title, score, created, nc, ur, rfl, rfl, rfl, rfl, rfl,
      h.1.1.1.1, h.1.1.1.2, h.1.1.2, h.1.2, h.2, htext⟩
  · rw [if_pos (by simpa using hreq)] at h
    cases h

/-- C1: when the validator rejects a dataset the run aborts with the
explicit, propagated `ValueError("Invalid Reddit data format")`: the
caller's frame is returned unchanged (no enrichment step ran, no derived
column was added) and the caller receives an `Except.error`, which is
distinguishable by construction from any `Except.ok` result of a
(possibly degraded) successful run. -/
theorem c1_validation_failure_fatal (classify : Classifier) (df : DF)
    (h : DataValidator.validate_reddit_data df = false) :
    RedditDataProcessor.process_reddit_data classify df =
      (df, .error "Invalid Reddit data format") := by
  rw [RedditDataProcessor.process_reddit_data, RedditDataProcessor.enrichStages, h]
  rfl

/-- C1 witness: the fatal-validation theorem applied to a concrete frame
missing the `upvote_ratio` column. -/
theorem c1_witness :
    DataValidator.validate_reddit_data dfMissingRequired = false ∧
      RedditDataProcessor.process_reddit_data neutralClassifier dfMissingRequired =
        (dfMissingRequired, .error "Invalid Reddit data format") :=
  ⟨by decide, c1_validation_failure_fatal neutralClassifier dfMissingRequired (by decide)⟩

/-- C4: `validate_reddit_data` is a total boolean function (the source
catches any exception during its checks and returns false) and returns
false whenever a required column is missing, `score` or `num_comments` is
not numeric-typed, `created_utc` is not datetime-typed, `upvote_ratio` is
not float-typed, or `title` contains a missing value. -/
theorem c4_validator_rejects (df : DF)
    (h : required_columns.all (fun c => df.hasCol c) = false ∨
      (∃ c, df.getCol "score" = .ok c ∧ isNumericDtype c.dtype = false) ∨
      (∃ c, df.getCol "num_comments" = .ok c ∧ isNumericDtype c.dtype = false) ∨
      (∃ c, df.getCol "created_utc" = .ok c ∧ isDatetimeDtype c.dtype = false) ∨
      (∃ c, df.getCol "upvote_ratio" = .ok c ∧ isFloatDtype c.dtype = false) ∨
      (∃ c, df.getCol "title" = .ok c ∧ c.cells.any Cell.isNull = true)) :
    DataValidator.validate_reddit_data df = false := by
  rcases hv : DataValidator.validate_reddit_data df with _ | _
  · rfl
  · exfalso
    obtain ⟨title, score, created, nc, ur, g5, g1, g2, g3, g4,
      d1, d2, d3, d4, d5, _⟩ := validate_spec hv
    have hreq : required_columns.all (fun c => df.hasCol c) = true := by
      rw [DataValidator.validate_reddit_data] at hv
      by_cases hr : required_columns.all (fun c => df.hasCol c) = true
      · exact hr
      · rw [if_pos (by simpa using hr)] at hv; cases hv
    rcases h with h | h | h | h | h | h
    · rw [hreq] at h; cases h
    · obtain ⟨c, hc, hd⟩ := h
      rw [g1] at hc; injection hc with hc; rw [← hc] at hd; rw [d1] at hd; cases hd
    · obtain ⟨c, hc, hd⟩ := h
      rw [g3] at hc; injection hc with hc; rw [← hc] at hd; rw [d3] at hd; cases hd
    · obtain ⟨c, hc, hd⟩ := h
      rw [g2] at hc; injection hc with hc; rw [← hc] at hd; rw [d2] at hd; cases hd
    · obtain ⟨c, hc, hd⟩ := h
      rw [g4] at hc; injection hc with hc; rw [← hc] at hd; rw [d4] at hd; cases hd
    · obtain ⟨c, hc, hd⟩ := h
      rw [g5] at hc; injection hc with hc; rw [← hc] at hd; rw [d5] at hd; cases hd

/-- C4 witness: the validator rejects the concrete frame missing
`upvote_ratio`. -/
theorem c4_witness :
    required_columns.all (fun c => dfMissingRequired.hasCol c) = false ∧
      DataValidator.validate_reddit_data dfMissingRequired = false :=
  ⟨by decide, c4_validator_rejects dfMissingRequired (Or.inl (by decide))⟩

theorem lookupCol_ok_any {n : String} {c : Col} :
    ∀ cols : List (String × Col), lookupCol n cols = .ok c →
      cols.any (fun p => p.1 == n) = true := by
  intro cols
  induction cols with
  | nil => intro h; cases h
  | cons p ps ih =>
    intro h
    rw [lookupCol] at h
    rw [List.any_cons]
    by_cases hp : p.1 == n
    · rw [hp]; rfl
    · rw [if_neg hp] at h
      rw [ih h, Bool.or_true]

theorem getCol_ok_hasCol {df : DF} {n : String} {c : Col} (h : df.getCol n = .ok c) :
    df.hasCol n = true :=
  lookupCol_ok_any df.cols h

theorem except_bind_ok {α β : Type} {x : Except String α} {f : α → Except String β} {b : β}
    (h : (x >>= f) = .ok b) : ∃ a, x = .ok a ∧ f a = .ok b := by
  rcases x with e | a
  · rw [show ((Except.error e : Except String α) >>= f) =
      (Except.error e : Except String β) from rfl] at h
    cases h
  · exact ⟨a, rfl, h⟩

theorem assignEngagement_ok {df df1 : DF}
    (h : DataProcessor.assignEngagement df = .ok df1) :
    ∃ col, df1 = df.setCol "engagement_score" col := by
  rw [DataProcessor.assignEngagement] at h
  obtain ⟨score, h1, h⟩ := except_bind_ok h
  obtain ⟨nc, h2, h⟩ := except_bind_ok h
  obtain ⟨ur, h3, h⟩ := except_bind_ok h
  obtain ⟨sv, h4, h⟩ := except_bind_ok h
  obtain ⟨nv, h5, h⟩ := except_bind_ok h
  obtain ⟨uv, h6, h⟩ := except_bind_ok h
  simp only [pure, Except.pure, Except.ok.injEq] at h
  exact ⟨_, h.symm⟩

theorem assignHour_ok {df df1 : DF}
    (h : DataProcessor.assignHour df = .ok df1) :
    ∃ col, df1 = df.setCol "hour_of_day" col := by
  rw [DataProcessor.assignHour] at h
  obtain ⟨cu, h1, h⟩ := except_bind_ok h
  by_cases hd : isDatetimeDtype cu.dtype = true
  · rw [if_pos hd] at h
    simp only [pure, Except.pure, Except.ok.injEq] at h
    exact ⟨_, h.symm⟩
  · rw [if_neg hd] at h
    cases h

theorem assignDayName_ok {df df1 : DF}
    (h : DataProcessor.assignDayName df = .ok df1) :
    ∃ col, df1 = df.setCol "day_of_week" col := by
  rw [DataProcessor.assignDayName] at h
  obtain ⟨cu, h1, h⟩ := except_bind_ok h
  by_cases hd : isDatetimeDtype cu.dtype = true
  · rw [if_pos hd] at h
    simp only [pure, Except.pure, Except.ok.injEq] at h
    exact ⟨_, h.symm⟩
  · rw [if_neg hd] at h
    cases h

/-- C8 counterexample: `calculate_engagement_metrics` is not atomic on
failure.  On a frame with valid numeric columns but no `created_utc`
column, an internal error occurs during the step (the `df['created_utc']`
access of the second statement raises), yet the returned frame is not the
original input: it already carries the `engagement_score` column assigned
by the first statement. -/
theorem c8_counterexample :
    engagementStepsOk dfNoCreated = false ∧
      DataProcessor.calculate_engagement_metrics dfNoCreated ≠ dfNoCreated ∧
      (DataProcessor.calculate_engagement_metrics dfNoCreated).hasCol
        "engagement_score" = true := by
  decide

/-- C8 (amended): the step is atomic only with respect to its first
statement.  If computing or assigning `engagement_score` itself fails, the
original frame is returned unmodified; if the subsequent `hour_of_day`
assignment fails, the frame is returned with the `engagement_score` column
already added; if the final `day_of_week` assignment fails, the frame is
returned as mutated by the two earlier statements. -/
theorem c8_engagement_failure_amended :
    (∀ (df : DF) (e : String), DataProcessor.assignEngagement df = .error e →
      DataProcessor.calculate_engagement_metrics df = df) ∧
    (∀ (df df1 : DF) (e : String), DataProcessor.assignEngagement df = .ok df1 →
      DataProcessor.assignHour df1 = .error e →
      DataProcessor.calculate_engagement_metrics df = df1 ∧
        df1.hasCol "engagement_score" = true) ∧
    (∀ (df df1 df2 : DF) (e : String), DataProcessor.assignEngagement df = .ok df1 →
      DataProcessor.assignHour df1 = .ok df2 →
      DataProcessor.assignDayName df2 = .error e →
      DataProcessor.calculate_engagement_metrics df = df2) := by
  refine ⟨?_, ?_, ?_⟩
  · intro df e h
    rw [DataProcessor.calculate_engagement_metrics, h]
  · intro df df1 e h1 h2
    obtain ⟨col, hcol⟩ := assignEngagement_ok h1
    refine ⟨?_, hcol ▸ hasCol_setCol_same df "engagement_score" col⟩
    simp only [DataProcessor.calculate_engagement_metrics, h1, h2]
  · intro df df1 df2 e h1 h2 h3
    simp only [DataProcessor.calculate_engagement_metrics, h1, h2, h3]

/-- C8 witness: both failure modes of the amended theorem at concrete
frames — a frame missing `score` is returned untouched, and the frame
missing only `created_utc` keeps its new `engagement_score` column. -/
theorem c8_witness :
    (DataProcessor.assignEngagement dfMissingRequired =
        .error "KeyError: upvote_ratio" ∧
      DataProcessor.calculate_engagement_metrics dfMissingRequired =
        dfMissingRequired) ∧
    ∃ df1, DataProcessor.assignEngagement dfNoCreated = .ok df1 ∧
      DataProcessor.assignHour df1 = .error "KeyError: created_utc" ∧
      DataProcessor.calculate_engagement_metrics dfNoCreated = df1 ∧
      df1.hasCol "engagement_score" = true := by
  constructor
  · exact ⟨by decide,
      c8_engagement_failure_amended.1 dfMissingRequired "KeyError: upvote_ratio"
        (by decide)⟩
  · rcases he : DataProcessor.assignEngagement dfNoCreated with e | df1
    · exfalso
      have : (DataProcessor.assignEngagement dfNoCreated).isOk = true := by decide
      rw [he] at this
      cases this
    · have h2 : DataProcessor.assignHour df1 = .error "KeyError: created_utc" := by
        have : ((DataProcessor.assignEngagement dfNoCreated).bind
            DataProcessor.assignHour) = .error "KeyError: created_utc" := by
          decide
        rw [he] at this
        exact this
      obtain ⟨heq, hhas⟩ :=
        (c8_engagement_failure_amended.2.1) dfNoCreated df1 _ he h2
      exact ⟨df1, rfl, h2, heq, hhas⟩

theorem mapM_map {α β γ : Type} (g : α → β) (F : β → Except String γ) :
    ∀ l : List α, (l.map g).mapM F = l.mapM (fun x => F (g x)) := by
  intro l
  induction l with
  | nil => rfl
  | cons a l ih => rw [List.map_cons, List.mapM_cons, List.mapM_cons, ih]

theorem calc_eng_eq1 {df : DF} {e : String}
    (h : DataProcessor.assignEngagement df = .error e) :
    DataProcessor.calculate_engagement_metrics df = df := by
  rw [DataProcessor.calculate_engagement_metrics, h]

theorem calc_eng_eq2 {df df1 : DF} {e : String}
    (h1 : DataProcessor.assignEngagement df = .ok df1)
    (h2 : DataProcessor.assignHour df1 = .error e) :
    DataProcessor.calculate_engagement_metrics df = df1 := by
  simp only [DataProcessor.calculate_engagement_metrics, h1, h2]

theorem calc_eng_eq3 {df df1 df2 : DF} {e : String}
    (h1 : DataProcessor.assignEngagement df = .ok df1)
    (h2 : DataProcessor.assignHour df1 = .ok df2)
    (h3 : DataProcessor.assignDayName df2 = .error e) :
    DataProcessor.calculate_engagement_metrics df = df2 := by
  simp only [DataProcessor.calculate_engagement_metrics, h1, h2, h3]

theorem calc_eng_eq4 {df df1 df2 df3 : DF}
    (h1 : DataProcessor.assignEngagement df = .ok df1)
    (h2 : DataProcessor.assignHour df1 = .ok df2)
    (h3 : DataProcessor.assignDayName df2 = .ok df3) :
    DataProcessor.calculate_engagement_metrics df = df3 := by
  simp only [DataProcessor.calculate_engagement_metrics, h1, h2, h3]

theorem calc_engagement_hasCol_mono {df : DF} {m : String} (h : df.hasCol m = true) :
    (DataProcessor.calculate_engagement_metrics df).hasCol m = true := by
  rcases hE : DataProcessor.assignEngagement df with e | df1
  · rw [calc_eng_eq1 hE]; exact h
  · obtain ⟨c1, hc1⟩ := assignEngagement_ok hE
    rcases hH : DataProcessor.assignHour df1 with e | df2
    · rw [calc_eng_eq2 hE hH, hc1]
      exact hasCol_setCol_mono h _ _
    · obtain ⟨c2, hc2⟩ := assignHour_ok hH
      rcases hD : DataProcessor.assignDayName df2 with e | df3
      · rw [calc_eng_eq3 hE hH hD, hc2, hc1]
        exact hasCol_setCol_mono (hasCol_setCol_mono h _ _) _ _
      · obtain ⟨c3, hc3⟩ := assignDayName_ok hD
        rw [calc_eng_eq4 hE hH hD, hc3, hc2, hc1]
        exact hasCol_setCol_mono (hasCol_setCol_mono (hasCol_setCol_mono h _ _) _ _) _ _

theorem calc_engagement_getCol_ne {df : DF} {n : String}
    (h1 : ¬ n = "engagement_score") (h2 : ¬ n = "hour_of_day")
    (h3 : ¬ n = "day_of_week") :
    (DataProcessor.calculate_engagement_metrics df).getCol n = df.getCol n := by
  rcases hE : DataProcessor.assignEngagement df with e | df1
  · rw [calc_eng_eq1 hE]
  · obtain ⟨c1, hc1⟩ := assignEngagement_ok hE
    rcases hH : DataProcessor.assignHour df1 with e | df2
    · rw [calc_eng_eq2 hE hH, hc1, getCol_setCol_ne _ _ h1]
    · obtain ⟨c2, hc2⟩ := assignHour_ok hH
      rcases hD : DataProcessor.assignDayName df2 with e | df3
      · rw [calc_eng_eq3 hE hH hD, hc2, hc1,
          getCol_setCol_ne _ _ h2, getCol_setCol_ne _ _ h1]
      · obtain ⟨c3, hc3⟩ := assignDayName_ok hD
        rw [calc_eng_eq4 hE hH hD, hc3, hc2, hc1, getCol_setCol_ne _ _ h3,
          getCol_setCol_ne _ _ h2, getCol_setCol_ne _ _ h1]

theorem calc_time_fst_err {df : DF} {ts : String} {e : String}
    (hc : df.getCol ts = .error e) :
    (MetricsCalculator.calculate_time_based_metrics df ts).1 = df := by
  simp only [MetricsCalculator.calculate_time_based_metrics, hc]

theorem calc_time_fst_not_datetime {df : DF} {ts : String} {cu : Col}
    (hc : df.getCol ts = .ok cu) (hd : isDatetimeDtype cu.dtype = false) :
    (MetricsCalculator.calculate_time_based_metrics df ts).1 = df := by
  simp only [MetricsCalculator.calculate_time_based_metrics, hc, hd,
    Bool.false_eq_true, if_false]

theorem calc_time_fst_datetime {df : DF} {ts : String} {cu : Col}
    (hc : df.getCol ts = .ok cu) (hd : isDatetimeDtype cu.dtype = true) :
    (MetricsCalculator.calculate_time_based_metrics df ts).1 =
      ((df.setCol "hour" (mkIntOrFloatCol (cu.cells.map (fun c => match c with
          | .dt secs => some (hourOf secs)
          | _ => none)))).setCol "day"
        ⟨.objectT, (cu.cells.map (fun c => match c with
          | .dt secs => some (dayNameOf secs)
          | _ => (none : Option String))).map (fun v => match v with
            | some d => Cell.s d
            | none => Cell.null)⟩).setCol "week"
        (mkIntOrFloatCol (cu.cells.map (fun c => match c with
          | .dt secs => some (isoWeekOf secs)
          | _ => none))) := by
  simp only [MetricsCalculator.calculate_time_based_metrics, hc, hd,
    eq_self_iff_true, if_true]

theorem calc_time_getCol_ne {df : DF} {ts n : String}
    (h1 : ¬ n = "hour") (h2 : ¬ n = "day") (h3 : ¬ n = "week") :
    (MetricsCalculator.calculate_time_based_metrics df ts).1.getCol n = df.getCol n := by
  rcases hc : df.getCol ts with e | cu
  · rw [calc_time_fst_err hc]
  · rcases hd : isDatetimeDtype cu.dtype with _ | _
    · rw [calc_time_fst_not_datetime hc hd]
    · rw [calc_time_fst_datetime hc hd, getCol_setCol_ne _ _ h3,
        getCol_setCol_ne _ _ h2, getCol_setCol_ne _ _ h1]

theorem calc_time_hasCol_mono {df : DF} {ts m : String} (h : df.hasCol m = true) :
    (MetricsCalculator.calculate_time_based_metrics df ts).1.hasCol m = true := by
  rcases hc : df.getCol ts with e | cu
  · rw [calc_time_fst_err hc]; exact h
  · rcases hd : isDatetimeDtype cu.dtype with _ | _
    · rw [calc_time_fst_not_datetime hc hd]; exact h
    · rw [calc_time_fst_datetime hc hd]
      exact hasCol_setCol_mono (hasCol_setCol_mono (hasCol_setCol_mono h _ _) _ _) _ _

theorem calc_time_adds_cols {df : DF} {ts : String} {cu : Col}
    (hc : df.getCol ts = .ok cu) (hd : isDatetimeDtype cu.dtype = true) :
    (MetricsCalculator.calculate_time_based_metrics df ts).1.hasCol "hour" = true ∧
      (MetricsCalculator.calculate_time_based_metrics df ts).1.hasCol "day" = true ∧
      (MetricsCalculator.calculate_time_based_metrics df ts).1.hasCol "week" = true := by
  rw [calc_time_fst_datetime hc hd]
  exact ⟨hasCol_setCol_mono (hasCol_setCol_mono (hasCol_setCol_same _ _ _) _ _) _ _,
    hasCol_setCol_mono (hasCol_setCol_same _ _ _) _ _,
    hasCol_setCol_same _ _ _⟩

theorem bind_ok {α β : Type} (a : α) (f : α → Except String β) :
    ((Except.ok a : Except String α) >>= f) = f a := rfl

theorem enrichStages_ok_spec {classify : Classifier} {df0 st df7 : DF}
    (h : RedditDataProcessor.enrichStages classify df0 = (st, .ok df7)) :
    st = df7 ∧ DataValidator.validate_reddit_data df0 = true ∧
      ∃ ctVals cxVals : List String,
        df7.getCol "clean_title" = .ok ⟨.objectT, ctVals.map Cell.s⟩ ∧
        df7.getCol "clean_text" = .ok ⟨.objectT, cxVals.map Cell.s⟩ ∧
        df7.getCol "sentiment" = .ok ⟨.objectT,
          ((ctVals.zip cxVals).map (fun p => Cell.s ((p.1 ++ " ") ++ p.2))).map
            (fun t => Cell.s (SentimentAnalyzer.analyze_text classify t).1)⟩ ∧
        df7.getCol "sentiment_score" = .ok ⟨.floatT,
          ((ctVals.zip cxVals).map (fun p => Cell.s ((p.1 ++ " ") ++ p.2))).map
            (fun t => Cell.f (SentimentAnalyzer.analyze_text classify t).2)⟩ ∧
        (∀ title, df0.getCol "title" = .ok title →
          ctVals.length = title.cells.length) ∧
        (∀ text, df0.getCol "text" = .ok text →
          cxVals.length = text.cells.length) := by
  rcases hval : DataValidator.validate_reddit_data df0 with _ | _
  · have heq : RedditDataProcessor.enrichStages classify df0 =
        (df0, .error "Invalid Reddit data format") := by
      rw [RedditDataProcessor.enrichStages, hval]
      rfl
    rw [heq] at h
    exact absurd (congrArg Prod.snd h) (by simp)
  · rcases hA : (df0.getCol "title").bind
        (fun c => c.cells.mapM TextPreprocessor.clean_cell) with e | ctVals
    · have heq : RedditDataProcessor.enrichStages classify df0 = (df0, .error e) := by
        rw [RedditDataProcessor.enrichStages, hval]
        simp only [Bool.not_true, Bool.false_eq_true, if_false, hA]
      rw [heq] at h
      exact absurd (congrArg Prod.snd h) (by simp)
    · have hdf1 : (df0.setCol "clean_title" ⟨.objectT, ctVals.map Cell.s⟩) =
          df0.setCol "clean_title" ⟨.objectT, ctVals.map Cell.s⟩ := rfl
      rcases hB : ((df0.setCol "clean_title" ⟨.objectT, ctVals.map Cell.s⟩).getCol
          "text").bind (fun c => c.cells.mapM TextPreprocessor.clean_cell) with e | cxVals
      · have heq : RedditDataProcessor.enrichStages classify df0 =
            (df0.setCol "clean_title" ⟨.objectT, ctVals.map Cell.s⟩, .error e) := by
          rw [RedditDataProcessor.enrichStages, hval]
          simp only [Bool.not_true, Bool.false_eq_true, if_false, hA, hB]
        rw [heq] at h
        exact absurd (congrArg Prod.snd h) (by simp)
      · rcases hE : seriesStrConcat (DataProcessor.calculate_engagement_metrics
            ((((df0.setCol "clean_title" ⟨.objectT, ctVals.map Cell.s⟩).setCol
                "clean_text" ⟨.objectT, cxVals.map Cell.s⟩).setCol "mentions"
              ⟨.objectT, (cxVals.map Cell.s).map
                (fun c => Cell.strs (TextPreprocessor.extract_mentions c))⟩).setCol
              "tickers" ⟨.objectT, (cxVals.map Cell.s).map
                (fun c => Cell.strs (TextPreprocessor.extract_tickers c))⟩))
            with e | texts
        · have heq : RedditDataProcessor.enrichStages classify df0 =
              (DataProcessor.calculate_engagement_metrics
                ((((df0.setCol "clean_title" ⟨.objectT, ctVals.map Cell.s⟩).setCol
                    "clean_text" ⟨.objectT, cxVals.map Cell.s⟩).setCol "mentions"
                  ⟨.objectT, (cxVals.map Cell.s).map
                    (fun c => Cell.strs (TextPreprocessor.extract_mentions c))⟩).setCol
                  "tickers" ⟨.objectT, (cxVals.map Cell.s).map
                    (fun c => Cell.strs (TextPreprocessor.extract_tickers c))⟩),
                .error e) := by
            rw [RedditDataProcessor.enrichStages, hval]
            simp only [Bool.not_true, Bool.false_eq_true, if_false, hA, hB,
              getCol_setCol_same, getCol_setCol_ne _ _ (show ¬ "clean_text" = "mentions" by decide),
              hE]
          rw [heq] at h
          exact absurd (congrArg Prod.snd h) (by simp)
        · have heq : RedditDataProcessor.enrichStages classify df0 =
              (((DataProcessor.calculate_engagement_metrics
                  ((((df0.setCol "clean_title" ⟨.objectT, ctVals.map Cell.s⟩).setCol
                      "clean_text" ⟨.objectT, cxVals.map Cell.s⟩).setCol "mentions"
                    ⟨.objectT, (cxVals.map Cell.s).map
                      (fun c => Cell.strs (TextPreprocessor.extract_mentions c))⟩).setCol
                    "tickers" ⟨.objectT, (cxVals.map Cell.s).map
                      (fun c => Cell.strs (TextPreprocessor.extract_tickers c))⟩)).setCol
                  "sentiment" ⟨.objectT,
                    (SentimentAnalyzer.analyze_texts_batch classify texts).map
                      (fun r => Cell.s r.1)⟩).setCol "sentiment_score" ⟨.floatT,
                    (SentimentAnalyzer.analyze_texts_batch classify texts).map
                      (fun r => Cell.f r.2)⟩,
                .ok (((DataProcessor.calculate_engagement_metrics
                  ((((df0.setCol "clean_title" ⟨.objectT, ctVals.map Cell.s⟩).setCol
                      "clean_text" ⟨.objectT, cxVals.map Cell.s⟩).setCol "mentions"
                    ⟨.objectT, (cxVals.map Cell.s).map
                      (fun c => Cell.strs (TextPreprocessor.extract_mentions c))⟩).setCol
                    "tickers" ⟨.objectT, (cxVals.map Cell.s).map
                      (fun c => Cell.strs (TextPreprocessor.extract_tickers c))⟩)).setCol
                  "sentiment" ⟨.objectT,
                    (SentimentAnalyzer.analyze_texts_batch classify texts).map
                      (fun r => Cell.s r.1)⟩).setCol "sentiment_score" ⟨.floatT,
                    (SentimentAnalyzer.analyze_texts_batch classify texts).map
                      (fun r => Cell.f r.2)⟩)) := by
            rw [RedditDataProcessor.enrichStages, hval]
            simp only [Bool.not_true, Bool.false_eq_true, if_false, hA, hB,
              getCol_setCol_same, getCol_setCol_ne _ _ (show ¬ "clean_text" = "mentions" by decide),
              hE]
          rw [heq] at h
          have h1 : _ = st := congrArg Prod.fst h
          have h2 := congrArg Prod.snd h
          injection h2 with h2
          subst h1
          subst h2
          set df4 := (((df0.setCol "clean_title"
              ⟨.objectT, ctVals.map Cell.s⟩).setCol "clean_text"
              ⟨.objectT, cxVals.map Cell.s⟩).setCol "mentions"
              ⟨.objectT, (cxVals.map Cell.s).map
                (fun c => Cell.strs (TextPreprocessor.extract_mentions c))⟩).setCol
              "tickers" ⟨.objectT, (cxVals.map Cell.s).map
                (fun c => Cell.strs (TextPreprocessor.extract_tickers c))⟩ with hdf4
          have hct5 : (DataProcessor.calculate_engagement_metrics df4).getCol
              "clean_title" = .ok ⟨.objectT, ctVals.map Cell.s⟩ := by
            rw [calc_engagement_getCol_ne (by decide) (by decide) (by decide), hdf4,
              getCol_setCol_ne _ _ (by decide), getCol_setCol_ne _ _ (by decide),
              getCol_setCol_ne _ _ (by decide), getCol_setCol_same]
          have hcx5 : (DataProcessor.calculate_engagement_metrics df4).getCol
              "clean_text" = .ok ⟨.objectT, cxVals.map Cell.s⟩ := by
            rw [calc_engagement_getCol_ne (by decide) (by decide) (by decide), hdf4,
              getCol_setCol_ne _ _ (by decide), getCol_setCol_ne _ _ (by decide),
              getCol_setCol_same]
          have hconcat : seriesStrConcat (DataProcessor.calculate_engagement_metrics df4) =
              .ok ((ctVals.zip cxVals).map (fun p => Cell.s ((p.1 ++ " ") ++ p.2))) := by
            rw [seriesStrConcat, hct5]
            rw [bind_ok]
            rw [hcx5, bind_ok]
            show ((ctVals.map Cell.s).zip (cxVals.map Cell.s)).mapM _ = _
            rw [List.zip_map, mapM_map]
            exact mapM_ok_of_pointwise _ (fun x _ => rfl)
          have htexts : texts = (ctVals.zip cxVals).map
              (fun p => Cell.s ((p.1 ++ " ") ++ p.2)) := by
            rw [hE] at hconcat
            exact Except.ok.inj hconcat
          obtain ⟨title, hTitle, hMapA⟩ := except_bind_ok hA
          obtain ⟨text, hText1, hMapB⟩ := except_bind_ok hB
          have hText : df0.getCol "text" = .ok text := by
            rw [getCol_setCol_ne _ _ (by decide)] at hText1
            exact hText1
          refine ⟨rfl, rfl, ctVals, cxVals, ?_, ?_, ?_, ?_, ?_, ?_⟩
          · rw [getCol_setCol_ne _ _ (by decide), getCol_setCol_ne _ _ (by decide), hct5]
          · rw [getCol_setCol_ne _ _ (by decide), getCol_setCol_ne _ _ (by decide), hcx5]
          · rw [getCol_setCol_ne _ _ (by decide), getCol_setCol_same]
            rw [htexts]
            congr 1
            simp only [SentimentAnalyzer.analyze_texts_batch, List.map_map]
            rfl
          · rw [getCol_setCol_same]
            rw [htexts]
            congr 1
            simp only [SentimentAnalyzer.analyze_texts_batch, List.map_map]
            rfl
          · intro title' ht'
            rw [hTitle] at ht'
            injection ht' with ht'
            rw [← ht']
            exact mapM_ok_length hMapA
          · intro text' ht'
            rw [hText] at ht'
            injection ht' with ht'
            rw [← ht']
            exact mapM_ok_length hMapB

/-! ## Lemmas about `_calculate_insights` and the full run -/

theorem calc_insights_fst (df : DF) :
    (RedditDataProcessor.calculate_insights df).1 =
      (MetricsCalculator.calculate_time_based_metrics df "created_utc").1 := by
  rcases h : RedditDataProcessor.insightsSteps
      (MetricsCalculator.calculate_time_based_metrics df "created_utc").1
      (MetricsCalculator.calculate_time_based_metrics df "created_utc").2 with e | ins
  · rw [RedditDataProcessor.calculate_insights]
    simp only [h]
  · rw [RedditDataProcessor.calculate_insights]
    simp only [h]

/-- **C9** counterexample: `process_reddit_data` mutates the caller's
frame in place.  On the valid fixture the run succeeds, yet after the call
the caller's frame is no longer the frame that was passed in: it has
gained (among others) the `hour` column added by
`calculate_time_based_metrics` deep inside the insights stage. -/
theorem c9_counterexample :
    DataValidator.validate_reddit_data dfFixture = true ∧
      (RedditDataProcessor.process_reddit_data neutralClassifier dfFixture).2.isOk = true ∧
      (RedditDataProcessor.process_reddit_data neutralClassifier dfFixture).1 ≠ dfFixture ∧
      (RedditDataProcessor.process_reddit_data neutralClassifier dfFixture).1.hasCol
        "hour" = true ∧
      dfFixture.hasCol "hour" = false := by
  decide

/-- **C9** (amended): far from leaving the caller's input unchanged, every
successful run mutates the caller's frame in place.  For any input frame
that does not already have a `clean_title` column, after a run whose
result is a success the caller's frame has a `clean_title` column and is
therefore no longer the frame that was passed in. -/
theorem c9_pipeline_mutates_caller (classify : Classifier) (df0 : DF)
    (hok : (RedditDataProcessor.process_reddit_data classify df0).2.isOk = true)
    (hno : df0.hasCol "clean_title" = false) :
    (RedditDataProcessor.process_reddit_data classify df0).1.hasCol "clean_title" = true ∧
      (RedditDataProcessor.process_reddit_data classify df0).1 ≠ df0 := by
  rcases he : RedditDataProcessor.enrichStages classify df0 with ⟨st0, r⟩
  rcases r with e | df7
  · have heq : RedditDataProcessor.process_reddit_data classify df0 = (st0, .error e) := by
      simp only [RedditDataProcessor.process_reddit_data, he]
    rw [heq] at hok
    cases hok
  · obtain ⟨hst, hval, ctVals, cxVals, hct, hcx, _⟩ := enrichStages_ok_spec he
    have heq : RedditDataProcessor.process_reddit_data classify df0 =
        ((RedditDataProcessor.calculate_insights df7).1,
          .ok ((RedditDataProcessor.calculate_insights df7).1,
            (RedditDataProcessor.calculate_insights df7).2)) := by
      simp only [RedditDataProcessor.process_reddit_data, he]
    rw [heq]
    have hhas : (RedditDataProcessor.calculate_insights df7).1.hasCol "clean_title" = true := by
      rw [calc_insights_fst]
      exact calc_time_hasCol_mono (getCol_ok_hasCol hct)
    exact ⟨hhas, ne_of_hasCol_ne hhas hno⟩

/-- C9 witness: the amended theorem at the valid fixture. -/
theorem c9_witness :
    dfFixture.hasCol "clean_title" = false ∧
      ((RedditDataProcessor.process_reddit_data neutralClassifier dfFixture).1.hasCol
          "clean_title" = true ∧
        (RedditDataProcessor.process_reddit_data neutralClassifier dfFixture).1 ≠ dfFixture) :=
  ⟨by decide, c9_pipeline_mutates_caller neutralClassifier dfFixture (by decide) (by decide)⟩

/-- **C6**: in every successful run of the enrichment stages, the
`sentiment` and `sentiment_score` columns are both computed, row for row,
from the single space-joined string `clean_title + " " + clean_text`
(never from the two fields separately); the batch is a positional map over
the joined texts, so result `i` is attached to post `i`, and the number of
results equals the number of input rows. -/
theorem c6_sentiment_joint_batch (classify : Classifier) (df0 st df7 : DF)
    (h : RedditDataProcessor.enrichStages classify df0 = (st, .ok df7)) :
    ∃ ctVals cxVals : List String,
      df7.getCol "clean_title" = .ok ⟨.objectT, ctVals.map Cell.s⟩ ∧
      df7.getCol "clean_text" = .ok ⟨.objectT, cxVals.map Cell.s⟩ ∧
      df7.getCol "sentiment" = .ok ⟨.objectT, ((ctVals.zip cxVals).map
        (fun p => (p.1 ++ " ") ++ p.2)).map (fun t =>
          Cell.s (SentimentAnalyzer.analyze_text classify (Cell.s t)).1)⟩ ∧
      df7.getCol "sentiment_score" = .ok ⟨.floatT, ((ctVals.zip cxVals).map
        (fun p => (p.1 ++ " ") ++ p.2)).map (fun t =>
          Cell.f (SentimentAnalyzer.analyze_text classify (Cell.s t)).2)⟩ ∧
      (∀ title, df0.getCol "title" = .ok title → ctVals.length = title.cells.length) ∧
      (∀ text, df0.getCol "text" = .ok text → cxVals.length = text.cells.length) := by
  obtain ⟨_, _, ctVals, cxVals, hct, hcx, hsent, hscore, hl1, hl2⟩ := enrichStages_ok_spec h
  refine ⟨ctVals, cxVals, hct, hcx, ?_, ?_, hl1, hl2⟩
  · rw [hsent]
    congr 1
    simp only [List.map_map]
    rfl
  · rw [hscore]
    congr 1
    simp only [List.map_map]
    rfl

/-- C6 witness: a successful run on the valid fixture, with the amended
conclusion instantiated there. -/
theorem c6_witness :
    ∃ st df7, RedditDataProcessor.enrichStages neutralClassifier dfFixture = (st, .ok df7) ∧
      ∃ ctVals cxVals : List String,
        df7.getCol "clean_title" = .ok ⟨.objectT, ctVals.map Cell.s⟩ ∧
        df7.getCol "clean_text" = .ok ⟨.objectT, cxVals.map Cell.s⟩ ∧
        df7.getCol "sentiment" = .ok ⟨.objectT, ((ctVals.zip cxVals).map
          (fun p => (p.1 ++ " ") ++ p.2)).map (fun t =>
            Cell.s (SentimentAnalyzer.analyze_text neutralClassifier (Cell.s t)).1)⟩ ∧
        df7.getCol "sentiment_score" = .ok ⟨.floatT, ((ctVals.zip cxVals).map
          (fun p => (p.1 ++ " ") ++ p.2)).map (fun t =>
            Cell.f (SentimentAnalyzer.analyze_text neutralClassifier (Cell.s t)).2)⟩ ∧
        (∀ title, dfFixture.getCol "title" = .ok title →
          ctVals.length = title.cells.length) ∧
        (∀ text, dfFixture.getCol "text" = .ok text →
          cxVals.length = text.cells.length) := by
  rcases he : RedditDataProcessor.enrichStages neutralClassifier dfFixture with ⟨st, r⟩
  rcases r with e | df7
  · exfalso
    have hok : (RedditDataProcessor.enrichStages neutralClassifier dfFixture).2.isOk = true := by
      decide
    rw [he] at hok
    cases hok
  · exact ⟨st, df7, rfl, c6_sentiment_joint_batch neutralClassifier dfFixture st df7 he⟩

/-- **C7**: insights failures are non-fatal.  First, whenever any statement
of the insights dictionary construction raises, `_calculate_insights`
returns the empty structure (`none`) instead of propagating, together with
the frame as mutated by the time-metrics call.  Second, whenever the
enrichment stages succeed, the whole run returns a success carrying the
enriched frame regardless of what the insights construction produced. -/
theorem c7_insights_failure_nonfatal :
    (∀ (df : DF) (e : String),
      RedditDataProcessor.insightsSteps
          (MetricsCalculator.calculate_time_based_metrics df "created_utc").1
          (MetricsCalculator.calculate_time_based_metrics df "created_utc").2 = .error e →
        RedditDataProcessor.calculate_insights df =
          ((MetricsCalculator.calculate_time_based_metrics df "created_utc").1, none)) ∧
    (∀ (classify : Classifier) (df0 st df7 : DF),
      RedditDataProcessor.enrichStages classify df0 = (st, .ok df7) →
        RedditDataProcessor.process_reddit_data classify df0 =
          ((RedditDataProcessor.calculate_insights df7).1,
            .ok ((RedditDataProcessor.calculate_insights df7).1,
              (RedditDataProcessor.calculate_insights df7).2))) := by
  constructor
  · intro df e h
    rw [RedditDataProcessor.calculate_insights]
    simp only [h]
  · intro classify df0 st df7 h
    simp only [RedditDataProcessor.process_reddit_data, h]

/-- C7 witness: on the raw fixture the insights construction fails at its
first statement (`KeyError: clean_title`) and the empty structure is
returned; and the full run on the fixture succeeds, returning the frame
produced by the insights stage. -/
theorem c7_witness :
    (RedditDataProcessor.insightsSteps
        (MetricsCalculator.calculate_time_based_metrics dfFixture "created_utc").1
        (MetricsCalculator.calculate_time_based_metrics dfFixture "created_utc").2 =
      .error "KeyError: clean_title" ∧
      RedditDataProcessor.calculate_insights dfFixture =
        ((MetricsCalculator.calculate_time_based_metrics dfFixture "created_utc").1,
          none)) ∧
    ∃ st df7, RedditDataProcessor.enrichStages neutralClassifier dfFixture =
        (st, .ok df7) ∧
      RedditDataProcessor.process_reddit_data neutralClassifier dfFixture =
        ((RedditDataProcessor.calculate_insights df7).1,
          .ok ((RedditDataProcessor.calculate_insights df7).1,
            (RedditDataProcessor.calculate_insights df7).2)) := by
  constructor
  · exact ⟨by decide, c7_insights_failure_nonfatal.1 dfFixture "KeyError: clean_title"
      (by decide)⟩
  · rcases he : RedditDataProcessor.enrichStages neutralClassifier dfFixture with ⟨st, r⟩
    rcases r with e | df7
    · exfalso
      have hok : (RedditDataProcessor.enrichStages neutralClassifier
          dfFixture).2.isOk = true := by
        decide
      rw [he] at hok
      cases hok
    · exact ⟨st, df7, rfl,
        c7_insights_failure_nonfatal.2 neutralClassifier dfFixture st df7 he⟩

/-! ## Lemmas about dtypes, cells and well-formed frames -/

theorem isNumeric_of_isFloat {d : ColDtype} (h : isFloatDtype d = true) :
    isNumericDtype d = true := by
  cases d <;> first | rfl | exact absurd h (by simp [isFloatDtype])

theorem toNum_ok_of_numeric {d : ColDtype} {c : Cell} (hd : isNumericDtype d = true)
    (hc : cellMatches d c = true) : Cell.toNum c = .ok (numVal c) := by
  cases d
  case intT =>
    cases c
    case i v => rfl
    all_goals simp [cellMatches] at hc
  case floatT =>
    cases c
    case null => rfl
    case f v => rfl
    all_goals simp [cellMatches] at hc
  case datetimeT => simp [isNumericDtype] at hd
  case objectT => simp [isNumericDtype] at hd

theorem wf_cells_match {df : DF} {n : String} {c : Col} (hwf : df.wf = true)
    (h : df.getCol n = .ok c) : c.cells.all (cellMatches c.dtype) = true := by
  rw [DF.wf, Bool.and_eq_true] at hwf
  obtain ⟨nm, hmem⟩ := lookupCol_ok_mem df.cols h
  have h2 := List.all_eq_true.mp hwf.2 (nm, c) hmem
  simp only [Bool.and_eq_true] at h2
  exact h2.2

theorem dayNameOf_mem (secs : Nat) : dayNameOf secs ∈ day_names := by
  rw [dayNameOf, isoWeekdayOfDays]
  have h7 : (secs / 86400 + 3) % 7 < 7 := Nat.mod_lt _ (by decide)
  generalize hg : (secs / 86400 + 3) % 7 = k at h7 ⊢
  interval_cases k <;> decide

/-- **C2** counterexample: an already-validated, well-formed frame on
which `hour_of_day` is *not* in 0–23 and `day_of_week` is *not* a day
name.  The validator only checks the dtype of `created_utc`, so a frame
with a missing timestamp (`NaT`) passes validation; the engagement step
then succeeds but yields a missing (`NaN`) hour and a missing day name
for that row. -/
theorem c2_counterexample :
    DataValidator.validate_reddit_data dfNaT = true ∧ dfNaT.wf = true ∧
      engagementStepsOk dfNaT = true ∧
      (DataProcessor.calculate_engagement_metrics dfNaT).getCol "hour_of_day" =
        .ok ⟨.floatT, [Cell.null]⟩ ∧
      (DataProcessor.calculate_engagement_metrics dfNaT).getCol "day_of_week" =
        .ok ⟨.objectT, [Cell.null]⟩ := by
  decide

/-- **C2** (amended): on every already-validated, well-formed frame the
engagement step succeeds in full and sets, row for row,
`engagement_score = (score * 1.0 + num_comments * 2.0) * upvote_ratio`
(with missing values propagating to a missing score),
`hour_of_day` to the hour 0–23 of `created_utc`, and `day_of_week` to its
day name — where rows whose `created_utc` is missing (`NaT`) get a missing
hour and day instead of a value in the promised range. -/
theorem c2_engagement_metrics {df : DF} (hwf : df.wf = true)
    (hval : DataValidator.validate_reddit_data df = true) :
    ∃ score created nc ur : Col,
      df.getCol "score" = .ok score ∧ df.getCol "created_utc" = .ok created ∧
        df.getCol "num_comments" = .ok nc ∧ df.getCol "upvote_ratio" = .ok ur ∧
        engagementStepsOk df = true ∧
        (DataProcessor.calculate_engagement_metrics df).getCol "engagement_score" =
          .ok ⟨.floatT, (List.zipWith3 engagementFormula (score.cells.map numVal)
            (nc.cells.map numVal) (ur.cells.map numVal)).map cellOfNum⟩ ∧
        (DataProcessor.calculate_engagement_metrics df).getCol "hour_of_day" =
          .ok (mkIntOrFloatCol (created.cells.map (fun c => match c with
            | Cell.dt secs => some (hourOf secs)
            | _ => none))) ∧
        (DataProcessor.calculate_engagement_metrics df).getCol "day_of_week" =
          .ok ⟨.objectT, created.cells.map (fun c => match c with
            | Cell.dt secs => Cell.s (dayNameOf secs)
            | _ => Cell.null)⟩ ∧
        (∀ secs, hourOf secs < 24 ∧ dayNameOf secs ∈ day_names) := by
  obtain ⟨title, score, created, nc, ur, ht, hs, hc, hn, hu, hsd, hcd, hnd, hud, _, _⟩ :=
    validate_spec hval
  have hsv : score.cells.mapM Cell.toNum = .ok (score.cells.map numVal) :=
    mapM_ok_of_pointwise _ (fun x hx => toNum_ok_of_numeric hsd
      (List.all_eq_true.mp (wf_cells_match hwf hs) x hx))
  have hnv : nc.cells.mapM Cell.toNum = .ok (nc.cells.map numVal) :=
    mapM_ok_of_pointwise _ (fun x hx => toNum_ok_of_numeric hnd
      (List.all_eq_true.mp (wf_cells_match hwf hn) x hx))
  have huv : ur.cells.mapM Cell.toNum = .ok (ur.cells.map numVal) :=
    mapM_ok_of_pointwise _ (fun x hx => toNum_ok_of_numeric (isNumeric_of_isFloat hud)
      (List.all_eq_true.mp (wf_cells_match hwf hu) x hx))
  set dfE := df.setCol "engagement_score" ⟨.floatT,
    (List.zipWith3 engagementFormula (score.cells.map numVal) (nc.cells.map numVal)
      (ur.cells.map numVal)).map cellOfNum⟩ with hdfE
  have hAE : DataProcessor.assignEngagement df = .ok dfE := by
    rw [DataProcessor.assignEngagement, hs, bind_ok, hn, bind_ok, hu, bind_ok,
      hsv, bind_ok, hnv, bind_ok, huv, bind_ok]
    rfl
  have hcE : dfE.getCol "created_utc" = .ok created := by
    rw [hdfE, getCol_setCol_ne _ _ (by decide)]
    exact hc
  set dfH := dfE.setCol "hour_of_day" (mkIntOrFloatCol (created.cells.map
    (fun c => match c with
      | Cell.dt secs => some (hourOf secs)
      | _ => none))) with hdfH
  have hAH : DataProcessor.assignHour dfE = .ok dfH := by
    rw [DataProcessor.assignHour, hcE, bind_ok, if_pos hcd]
    rfl
  have hcH : dfH.getCol "created_utc" = .ok created := by
    rw [hdfH, getCol_setCol_ne _ _ (by decide)]
    exact hcE
  set dfD := dfH.setCol "day_of_week" ⟨.objectT, created.cells.map
    (fun c => match c with
      | Cell.dt secs => Cell.s (dayNameOf secs)
      | _ => Cell.null)⟩ with hdfD
  have hAD : DataProcessor.assignDayName dfH = .ok dfD := by
    rw [DataProcessor.assignDayName, hcH, bind_ok, if_pos hcd]
    rfl
  have hCE : DataProcessor.calculate_engagement_metrics df = dfD :=
    calc_eng_eq4 hAE hAH hAD
  refine ⟨score, created, nc, ur, hs, hc, hn, hu, ?_, ?_, ?_, ?_, ?_⟩
  · rw [engagementStepsOk, hAE]
    show ((DataProcessor.assignHour dfE).bind DataProcessor.assignDayName).isOk = true
    rw [hAH]
    show (DataProcessor.assignDayName dfH).isOk = true
    rw [hAD]
    rfl
  · rw [hCE, hdfD, getCol_setCol_ne _ _ (by decide), hdfH,
      getCol_setCol_ne _ _ (by decide), hdfE, getCol_setCol_same]
  · rw [hCE, hdfD, getCol_setCol_ne _ _ (by decide), hdfH, getCol_setCol_same]
  · rw [hCE, hdfD, getCol_setCol_same]
  · intro secs
    exact ⟨Nat.mod_lt _ (by decide), dayNameOf_mem secs⟩

/-- C2 witness: the amended theorem at the valid fixture, together with
the claim's own concrete example: score 100, 50 comments, upvote ratio
0.95 gives an engagement score of exactly 190, posted hour 5, a Sunday. -/
theorem c2_witness :
    dfFixture.wf = true ∧ DataValidator.validate_reddit_data dfFixture = true ∧
      (∃ score created nc ur : Col,
        dfFixture.getCol "score" = .ok score ∧
          dfFixture.getCol "created_utc" = .ok created ∧
          dfFixture.getCol "num_comments" = .ok nc ∧
          dfFixture.getCol "upvote_ratio" = .ok ur ∧
          engagementStepsOk dfFixture = true ∧
          (DataProcessor.calculate_engagement_metrics dfFixture).getCol
              "engagement_score" =
            .ok ⟨.floatT, (List.zipWith3 engagementFormula (score.cells.map numVal)
              (nc.cells.map numVal) (ur.cells.map numVal)).map cellOfNum⟩ ∧
          (DataProcessor.calculate_engagement_metrics dfFixture).getCol "hour_of_day" =
            .ok (mkIntOrFloatCol (created.cells.map (fun c => match c with
              | Cell.dt secs => some (hourOf secs)
              | _ => none))) ∧
          (DataProcessor.calculate_engagement_metrics dfFixture).getCol "day_of_week" =
            .ok ⟨.objectT, created.cells.map (fun c => match c with
              | Cell.dt secs => Cell.s (dayNameOf secs)
              | _ => Cell.null)⟩ ∧
          (∀ secs, hourOf secs < 24 ∧ dayNameOf secs ∈ day_names)) ∧
      (DataProcessor.calculate_engagement_metrics dfFixture).getCol
          "engagement_score" = .ok ⟨.floatT, [Cell.f 190]⟩ ∧
      (DataProcessor.calculate_engagement_metrics dfFixture).getCol
          "hour_of_day" = .ok ⟨.intT, [Cell.i 5]⟩ ∧
      (DataProcessor.calculate_engagement_metrics dfFixture).getCol
          "day_of_week" = .ok ⟨.objectT, [Cell.s "Sunday"]⟩ :=
  ⟨by decide, by decide, c2_engagement_metrics (by decide) (by decide),
    by decide, by decide, by decide⟩
